import Mathlib

/-! The JSON-RPC dispatcher of github-go-server-mcp and its tool adapters.

A shallow embedding of `src/main.go`.  The program reads JSON-RPC 2.0 requests,
dispatches on the method name and, for `tools/call`, on the tool name; each of
the twelve tool adapters validates its arguments, performs one call on the
go-github client and reshapes the answer into text.

Modelling choices:

* a Go `interface{}` holding decoded JSON is `GoVal`; a Go `map[string]interface{}`
  is an association list read with `lookup` (a nil map and an empty map answer
  every lookup alike, both are `[]`);
* a Go `(T, error)` pair is `Except String T`, the string being `err.Error()`
  (every failing return in the source returns the zero value of `T`);
* the go-github client is a record of functions over an explicit remote state
  `σ`; every adapter returns an `Exec`: the remote state afterwards, the list
  of remote calls it issued, and whether it returned or panicked.
-/

namespace GithubMcp

/-! ## Values of the untyped parameter bags -/

/-- A Go `interface{}` value as `encoding/json` decodes it (`nil`, `bool`,
`float64`, `string`, `[]interface{}`, `map[string]interface{}`), plus the Go
`int` that `handleRequest` stores as the default id.  A `float64` is kept as its
IEEE-754 bit pattern: the program never computes with it. -/
inductive GoVal where
  | nil : GoVal
  | bool (b : Bool) : GoVal
  | float64 (bits : Nat) : GoVal
  | str (s : String) : GoVal
  | int (n : Int) : GoVal
  | slice (xs : List GoVal) : GoVal
  | map (m : List (String × GoVal)) : GoVal

/-- A Go `map[string]interface{}`. -/
abbrev GoMap := List (String × GoVal)

/-- The map read `m[k]`: the stored value, or the nil interface when `k` is not
a key. -/
def lookup (m : GoMap) (k : String) : GoVal :=
  match m with
  | [] => GoVal.nil
  | (k', v) :: rest => if k' = k then v else lookup rest k

/-- The comma-ok assertion `v.(string)`. -/
def asString (v : GoVal) : Option String :=
  match v with
  | GoVal.str s => some s
  | _ => none

/-- The comma-ok assertion `v.(bool)`. -/
def asBool (v : GoVal) : Option Bool :=
  match v with
  | GoVal.bool b => some b
  | _ => none

/-- The comma-ok assertion `v.(map[string]interface{})`. -/
def asMap (v : GoVal) : Option GoMap :=
  match v with
  | GoVal.map m => some m
  | _ => none

/-- The idiom `x, ok := args[k].(string)`. -/
def getString (args : GoMap) (k : String) : Option String :=
  asString (lookup args k)

/-- The idiom `x, ok := args[k].(bool)`. -/
def getBool (args : GoMap) (k : String) : Option Bool :=
  asBool (lookup args k)

/-! ## Protocol types (main.go:19-69) -/

structure JSONRPCRequest where
  jsonrpc : String
  id : GoVal
  method : String
  params : GoMap

structure JSONRPCError where
  code : Int
  message : String
  data : GoVal

structure Property where
  type : String
  description : String
deriving DecidableEq

structure ToolInputSchema where
  type : String
  properties : List (String × Property)
  required : List String
deriving DecidableEq

structure Tool where
  name : String
  description : String
  inputSchema : ToolInputSchema
deriving DecidableEq

structure ToolsListResult where
  tools : List Tool
deriving DecidableEq

structure Content where
  type : String
  text : String
deriving DecidableEq

structure ToolCallResult where
  content : List Content
deriving DecidableEq

/-- What `handleRequest` stores in the `Result interface{}` field: a map
literal, the tool catalog, or a tool call result. -/
inductive Payload where
  | value (v : GoVal) : Payload
  | toolsList (r : ToolsListResult) : Payload
  | toolCall (r : ToolCallResult) : Payload

/-- The response struct; `result = none` is the nil interface and
`error = none` the nil pointer. -/
structure JSONRPCResponse where
  jsonrpc : String
  id : GoVal
  result : Option Payload
  error : Option JSONRPCError

/-! ## Entities of the go-github client

Pointer fields are `Option`s and the generated accessors (`GetName`, ...) return
the zero value on nil.  The accessors are nil-safe on their receiver too, so an
entity pointer that is only read through them is modelled by the structure
itself. -/

/-- A `github.Timestamp`, kept as what `time.Time.MarshalJSON` writes for it:
the quoted RFC 3339 text, or `none` when it reports an error (year outside
0..9999). -/
structure Timestamp where
  json : Option String

/-- The zero `Timestamp`, which the accessors return for a nil field. -/
def Timestamp.zero : Timestamp := ⟨some "\"0001-01-01T00:00:00Z\""⟩

structure Repository where
  name : Option String
  description : Option String
  isPrivate : Option Bool
  htmlURL : Option String
  language : Option String
  stargazersCount : Option Int
  forksCount : Option Int
  openIssuesCount : Option Int
  createdAt : Option Timestamp
  updatedAt : Option Timestamp

structure RepositoryCommit where
  sha : Option String

structure Branch where
  name : Option String
  isProtected : Option Bool
  commit : Option RepositoryCommit

structure User where
  login : Option String

structure PullRequestBranch where
  ref : Option String

structure PullRequest where
  number : Option Int
  title : Option String
  state : Option String
  htmlURL : Option String
  user : Option User
  head : Option PullRequestBranch
  base : Option PullRequestBranch

structure Issue where
  number : Option Int
  title : Option String
  state : Option String
  htmlURL : Option String
  user : Option User

structure RepositoryContent where
  type : Option String
  encoding : Option String
  size : Option Int
  name : Option String
  path : Option String
  content : Option String
  sha : Option String
  htmlURL : Option String

structure Commit where
  sha : Option String

/-- The answer of `CreateFile` and `UpdateFile`; `Commit` is an embedded value,
not a pointer. -/
structure RepositoryContentResponse where
  content : Option RepositoryContent
  commit : Commit

/-! ## Request bodies and options the adapters build -/

structure RepositoryListOptions where
  type : String
deriving DecidableEq

/-- The `github.Repository` the adapter sends to `Create`: only these three
fields are ever set. -/
structure NewRepository where
  name : Option String
  description : Option String
  isPrivate : Option Bool
deriving DecidableEq

structure PullRequestListOptions where
  state : String
deriving DecidableEq

structure NewPullRequest where
  title : Option String
  head : Option String
  base : Option String
  body : Option String
deriving DecidableEq

structure IssueListByRepoOptions where
  state : String
deriving DecidableEq

structure IssueRequest where
  title : Option String
  body : Option String
deriving DecidableEq

structure RepositoryContentFileOptions where
  message : Option String
  content : String
  sha : Option String
  branch : Option String
deriving DecidableEq

structure RepositoryContentGetOptions where
  ref : String
deriving DecidableEq

/-- One call on the go-github client, with the arguments the adapter passed. -/
inductive RemoteCall where
  | repositoriesList (user : String) (opt : RepositoryListOptions) : RemoteCall
  | repositoriesCreate (org : String) (repo : NewRepository) : RemoteCall
  | repositoriesGet (owner repo : String) : RemoteCall
  | repositoriesListBranches (owner repo : String) : RemoteCall
  | pullRequestsList (owner repo : String) (opt : PullRequestListOptions) : RemoteCall
  | pullRequestsCreate (owner repo : String) (pr : NewPullRequest) : RemoteCall
  | issuesListByRepo (owner repo : String) (opt : IssueListByRepoOptions) : RemoteCall
  | issuesCreate (owner repo : String) (issue : IssueRequest) : RemoteCall
  | repositoriesCreateFile (owner repo path : String)
      (opt : RepositoryContentFileOptions) : RemoteCall
  | repositoriesUpdateFile (owner repo path : String)
      (opt : RepositoryContentFileOptions) : RemoteCall
  | repositoriesGetContents (owner repo path : String)
      (opt : RepositoryContentGetOptions) : RemoteCall
deriving DecidableEq

/-- The remote collaborator: the go-github services the adapters call, as
functions of the call's arguments and the remote state.  An answer is the
call's `(value, error)` pair.  `GetContents` answers a file object or a
directory listing (the other one nil).  `decodeBase64` is
`base64.StdEncoding.DecodeString`, used by `GetContent`. -/
structure GithubClient (σ : Type) where
  repositoriesList : String → RepositoryListOptions → σ →
    Except String (List Repository) × σ
  repositoriesCreate : String → NewRepository → σ → Except String Repository × σ
  repositoriesGet : String → String → σ → Except String Repository × σ
  repositoriesListBranches : String → String → σ → Except String (List Branch) × σ
  pullRequestsList : String → String → PullRequestListOptions → σ →
    Except String (List PullRequest) × σ
  pullRequestsCreate : String → String → NewPullRequest → σ →
    Except String PullRequest × σ
  issuesListByRepo : String → String → IssueListByRepoOptions → σ →
    Except String (List Issue) × σ
  issuesCreate : String → String → IssueRequest → σ → Except String Issue × σ
  repositoriesCreateFile : String → String → String → RepositoryContentFileOptions → σ →
    Except String RepositoryContentResponse × σ
  repositoriesUpdateFile : String → String → String → RepositoryContentFileOptions → σ →
    Except String RepositoryContentResponse × σ
  repositoriesGetContents : String → String → String → RepositoryContentGetOptions → σ →
    Except String (Option RepositoryContent × List RepositoryContent) × σ
  decodeBase64 : String → Except String String

/-- How a Go call ends: it returns a value or it panics. -/
inductive GoOut (α : Type) where
  | returned (a : α) : GoOut α
  | panicked (msg : String) : GoOut α

/-- The run of an adapter or of the dispatcher: the remote state afterwards,
the remote calls issued in order, and the outcome. -/
structure Exec (σ α : Type) where
  world : σ
  calls : List RemoteCall
  out : GoOut α

/-- The statement `return "", fmt.Errorf(msg)` before any remote call. -/
def failWith {σ α : Type} (w : σ) (msg : String) : Exec σ (Except String α) :=
  ⟨w, [], GoOut.returned (Except.error msg)⟩

/-! ## Generated accessors of go-github (nil gives the zero value) -/

def Repository.GetName (r : Repository) : String := r.name.getD ""
def Repository.GetDescription (r : Repository) : String := r.description.getD ""
def Repository.GetPrivate (r : Repository) : Bool := r.isPrivate.getD false
def Repository.GetHTMLURL (r : Repository) : String := r.htmlURL.getD ""
def Repository.GetLanguage (r : Repository) : String := r.language.getD ""
def Repository.GetStargazersCount (r : Repository) : Int := r.stargazersCount.getD 0
def Repository.GetForksCount (r : Repository) : Int := r.forksCount.getD 0
def Repository.GetOpenIssuesCount (r : Repository) : Int := r.openIssuesCount.getD 0
def Repository.GetCreatedAt (r : Repository) : Timestamp := r.createdAt.getD Timestamp.zero
def Repository.GetUpdatedAt (r : Repository) : Timestamp := r.updatedAt.getD Timestamp.zero

def Branch.GetName (b : Branch) : String := b.name.getD ""
def Branch.GetProtected (b : Branch) : Bool := b.isProtected.getD false
/-- The chain `branch.GetCommit().GetSHA()`. -/
def Branch.GetCommitSHA (b : Branch) : String :=
  match b.commit with
  | some c => c.sha.getD ""
  | none => ""

/-- The accessor `GetLogin` on the result of `GetUser`. -/
def User.GetLogin (u : Option User) : String :=
  match u with
  | some u => u.login.getD ""
  | none => ""

/-- The accessor `GetRef` on the result of `GetHead` or `GetBase`. -/
def PullRequestBranch.GetRef (b : Option PullRequestBranch) : String :=
  match b with
  | some b => b.ref.getD ""
  | none => ""

def PullRequest.GetNumber (p : PullRequest) : Int := p.number.getD 0
def PullRequest.GetTitle (p : PullRequest) : String := p.title.getD ""
def PullRequest.GetState (p : PullRequest) : String := p.state.getD ""
def PullRequest.GetHTMLURL (p : PullRequest) : String := p.htmlURL.getD ""

def Issue.GetNumber (i : Issue) : Int := i.number.getD 0
def Issue.GetTitle (i : Issue) : String := i.title.getD ""
def Issue.GetState (i : Issue) : String := i.state.getD ""
def Issue.GetHTMLURL (i : Issue) : String := i.htmlURL.getD ""

def RepositoryContent.GetName (r : RepositoryContent) : String := r.name.getD ""
def RepositoryContent.GetPath (r : RepositoryContent) : String := r.path.getD ""
def RepositoryContent.GetType (r : RepositoryContent) : String := r.type.getD ""
def RepositoryContent.GetSize (r : RepositoryContent) : Int := r.size.getD 0
def RepositoryContent.GetSHA (r : RepositoryContent) : String := r.sha.getD ""
def RepositoryContent.GetEncoding (r : RepositoryContent) : String := r.encoding.getD ""
def RepositoryContent.GetHTMLURL (r : RepositoryContent) : String := r.htmlURL.getD ""
def Commit.GetSHA (c : Commit) : String := c.sha.getD ""

/-- The hand-written go-github method `(*RepositoryContent).GetContent`
(repos_contents.go of go-github v66) on a non-nil receiver: it reads
`r.Encoding`, then decodes `r.Content` accordingly.  It has no nil guard, unlike
the generated accessors: see `getFile` for the nil receiver. -/
def RepositoryContent.GetContent (decodeBase64 : String → Except String String)
    (r : RepositoryContent) : Except String String :=
  let encoding := r.encoding.getD ""
  if encoding = "base64" then
    match r.content with
    | none => Except.error "malformed response: base64 encoding of null content"
    | some c => decodeBase64 c
  else if encoding = "" then
    Except.ok (r.content.getD "")
  else if encoding = "none" then
    Except.error ("unsupported content encoding: none, this may occur when file size > 1 MB, "
      ++ "if that is the case consider using DownloadContents")
  else
    Except.error ("unsupported content encoding: " ++ encoding)

/-! ## `json.MarshalIndent(v, "", "  ")` on the values the adapters build -/

/-- A value an adapter stores in a result map. -/
inductive FieldVal where
  | str (s : String) : FieldVal
  | bool (b : Bool) : FieldVal
  | int (n : Int) : FieldVal
  | time (t : Timestamp) : FieldVal

/-- A result map `map[string]interface{}` as the adapter's literal lists it. -/
abbrev ResultMap := List (String × FieldVal)

def hexDigit (n : Nat) : Char :=
  "0123456789abcdef".toList.getD n '0'

/-- One character of a JSON string as `encoding/json` writes it with HTML
escaping on: the quote and the backslash are backslash-escaped, the control
characters 8, 9, 10, 12, 13 have their short forms, the other control
characters and the characters `<`, `>`, `&`, U+2028, U+2029 are written
as `\u` and four hex digits. -/
def escapeChar (c : Char) : String :=
  let n := c.toNat
  if n = 34 then "\\\""
  else if n = 92 then "\\\\"
  else if n = 8 then "\\b"
  else if n = 12 then "\\f"
  else if n = 10 then "\\n"
  else if n = 13 then "\\r"
  else if n = 9 then "\\t"
  else if n < 32 ∨ n = 60 ∨ n = 62 ∨ n = 38 then
    "\\u00" ++ String.mk [hexDigit (n / 16), hexDigit (n % 16)]
  else if n = 8232 then "\\u2028"
  else if n = 8233 then "\\u2029"
  else String.mk [c]

/-- A Go string as a JSON string literal. -/
def quoteJSON (s : String) : String :=
  "\"" ++ String.join (s.toList.map escapeChar) ++ "\""

/-- The encoding of one field value; only a `Timestamp` can fail. -/
def FieldVal.marshal (v : FieldVal) : Option String :=
  match v with
  | FieldVal.str s => some (quoteJSON s)
  | FieldVal.bool b => some (if b then "true" else "false")
  | FieldVal.int n => some (toString n)
  | FieldVal.time t => t.json

/-- Insertion of one entry into a key-sorted list. -/
def insertByKey (e : String × FieldVal) (m : ResultMap) : ResultMap :=
  match m with
  | [] => [e]
  | e' :: rest => if e.1 < e'.1 then e :: e' :: rest else e' :: insertByKey e rest

/-- The order in which `encoding/json` writes a map: keys sorted. -/
def sortByKey (m : ResultMap) : ResultMap :=
  m.foldr insertByKey []

/-- The indentation at nesting depth `d`: `d` copies of two spaces. -/
def pad (d : Nat) : String :=
  String.join (List.replicate d "  ")

/-- The members `"key": value` of a map, in the order given; `none` when a
value fails to encode. -/
def marshalMembers (m : ResultMap) : Option (List String) :=
  match m with
  | [] => some []
  | (k, v) :: rest =>
    match v.marshal, marshalMembers rest with
    | some s, some ss => some ((quoteJSON k ++ ": " ++ s) :: ss)
    | _, _ => none

/-- A bracketed, indented sequence of already encoded items at depth `d`. -/
def bracket (d : Nat) (opening closing : String) (items : List String) : String :=
  match items with
  | [] => opening ++ closing
  | _ => opening ++ "\n" ++ pad (d + 1)
      ++ String.intercalate (",\n" ++ pad (d + 1)) items
      ++ "\n" ++ pad d ++ closing

/-- A result map at depth `d`. -/
def marshalMapAt (d : Nat) (m : ResultMap) : Option String :=
  match marshalMembers (sortByKey m) with
  | some members => some (bracket d "\x7b" "\x7d" members)
  | none => none

/-- All the maps of a slice at depth 1; `none` when one of them fails. -/
def marshalElems (xs : List ResultMap) : Option (List String) :=
  match xs with
  | [] => some []
  | m :: rest =>
    match marshalMapAt 1 m, marshalElems rest with
    | some s, some ss => some (s :: ss)
    | _, _ => none

/-- The statement `output, _ := json.MarshalIndent(result, "", "  ")` followed by
`string(output)` for a result map: on an encoding error the output is nil and
the text empty. -/
def marshalIndentMap (m : ResultMap) : String :=
  (marshalMapAt 0 m).getD ""

/-- A Go slice of result maps: `none` is the nil slice. -/
abbrev ResultSlice := Option (List ResultMap)

/-- The builtin `append(result, m)`. -/
def goAppend (result : ResultSlice) (m : ResultMap) : ResultSlice :=
  match result with
  | none => some [m]
  | some xs => some (xs ++ [m])

/-- The loop `var result []map[string]interface{}; for _, x := range xs
{ result = append(result, f x) }`. -/
def collect {α : Type} (f : α → ResultMap) (xs : List α) : ResultSlice :=
  xs.foldl (fun result x => goAppend result (f x)) none

/-- The statement `output, _ := json.MarshalIndent(result, "", "  ")` followed by
`string(output)` for a slice of result maps: the nil slice is written `null`. -/
def marshalIndentSlice (result : ResultSlice) : String :=
  match result with
  | none => "null"
  | some xs =>
    match marshalElems xs with
    | some elems => bracket 0 "[" "]" elems
    | none => ""

/-! ## The twelve tool adapters (main.go:401-852) -/

/-- The run of an adapter: its `(string, error)` result. -/
abbrev AdapterRun (σ : Type) := Exec σ (Except String String)

def listRepositories {σ : Type} (c : GithubClient σ) (args : GoMap) (w : σ) : AdapterRun σ :=
  let listType := match getString args "type" with
    | some t => t
    | none => "all"
  let opt : RepositoryListOptions := ⟨listType⟩
  let ans := c.repositoriesList "" opt w
  ⟨ans.2, [RemoteCall.repositoriesList "" opt], GoOut.returned (
    match ans.1 with
    | Except.error err => Except.error err
    | Except.ok repos => Except.ok (marshalIndentSlice (collect (fun repo =>
        [("name", FieldVal.str repo.GetName),
         ("description", FieldVal.str repo.GetDescription),
         ("private", FieldVal.bool repo.GetPrivate),
         ("url", FieldVal.str repo.GetHTMLURL),
         ("language", FieldVal.str repo.GetLanguage),
         ("stars", FieldVal.int repo.GetStargazersCount)]) repos)))⟩

def createRepository {σ : Type} (c : GithubClient σ) (args : GoMap) (w : σ) : AdapterRun σ :=
  match getString args "name" with
  | none => failWith w "repository name required"
  | some name =>
    let repo : NewRepository :=
      ⟨some name, getString args "description", getBool args "private"⟩
    let ans := c.repositoriesCreate "" repo w
    ⟨ans.2, [RemoteCall.repositoriesCreate "" repo], GoOut.returned (
      match ans.1 with
      | Except.error err => Except.error err
      | Except.ok createdRepo => Except.ok ("Repository \x27" ++ createdRepo.GetName
          ++ "\x27 created successfully: " ++ createdRepo.GetHTMLURL))⟩

def getRepository {σ : Type} (c : GithubClient σ) (args : GoMap) (w : σ) : AdapterRun σ :=
  match getString args "owner" with
  | none => failWith w "owner required"
  | some owner =>
  match getString args "repo" with
  | none => failWith w "repository name required"
  | some repoName =>
    let ans := c.repositoriesGet owner repoName w
    ⟨ans.2, [RemoteCall.repositoriesGet owner repoName], GoOut.returned (
      match ans.1 with
      | Except.error err => Except.error err
      | Except.ok repo => Except.ok (marshalIndentMap
        [("name", FieldVal.str repo.GetName),
         ("description", FieldVal.str repo.GetDescription),
         ("private", FieldVal.bool repo.GetPrivate),
         ("url", FieldVal.str repo.GetHTMLURL),
         ("language", FieldVal.str repo.GetLanguage),
         ("stars", FieldVal.int repo.GetStargazersCount),
         ("forks", FieldVal.int repo.GetForksCount),
         ("issues", FieldVal.int repo.GetOpenIssuesCount),
         ("created", FieldVal.time repo.GetCreatedAt),
         ("updated", FieldVal.time repo.GetUpdatedAt)]))⟩

def listBranches {σ : Type} (c : GithubClient σ) (args : GoMap) (w : σ) : AdapterRun σ :=
  match getString args "owner" with
  | none => failWith w "owner required"
  | some owner =>
  match getString args "repo" with
  | none => failWith w "repository name required"
  | some repoName =>
    let ans := c.repositoriesListBranches owner repoName w
    ⟨ans.2, [RemoteCall.repositoriesListBranches owner repoName], GoOut.returned (
      match ans.1 with
      | Except.error err => Except.error err
      | Except.ok branches => Except.ok (marshalIndentSlice (collect (fun branch =>
        [("name", FieldVal.str branch.GetName),
         ("protected", FieldVal.bool branch.GetProtected),
         ("sha", FieldVal.str branch.GetCommitSHA)]) branches)))⟩

def listPullRequests {σ : Type} (c : GithubClient σ) (args : GoMap) (w : σ) : AdapterRun σ :=
  match getString args "owner" with
  | none => failWith w "owner required"
  | some owner =>
  match getString args "repo" with
  | none => failWith w "repository name required"
  | some repoName =>
    let state := match getString args "state" with
      | some s => s
      | none => "open"
    let opt : PullRequestListOptions := ⟨state⟩
    let ans := c.pullRequestsList owner repoName opt w
    ⟨ans.2, [RemoteCall.pullRequestsList owner repoName opt], GoOut.returned (
      match ans.1 with
      | Except.error err => Except.error err
      | Except.ok prs => Except.ok (marshalIndentSlice (collect (fun pr =>
        [("number", FieldVal.int pr.GetNumber),
         ("title", FieldVal.str pr.GetTitle),
         ("state", FieldVal.str pr.GetState),
         ("url", FieldVal.str pr.GetHTMLURL),
         ("user", FieldVal.str (User.GetLogin pr.user)),
         ("head", FieldVal.str (PullRequestBranch.GetRef pr.head)),
         ("base", FieldVal.str (PullRequestBranch.GetRef pr.base))]) prs)))⟩

def createPullRequest {σ : Type} (c : GithubClient σ) (args : GoMap) (w : σ) : AdapterRun σ :=
  match getString args "owner" with
  | none => failWith w "owner required"
  | some owner =>
  match getString args "repo" with
  | none => failWith w "repository name required"
  | some repoName =>
  match getString args "title" with
  | none => failWith w "title required"
  | some title =>
  match getString args "head" with
  | none => failWith w "head branch required"
  | some head =>
  match getString args "base" with
  | none => failWith w "base branch required"
  | some base =>
    let pr : NewPullRequest := ⟨some title, some head, some base, getString args "body"⟩
    let ans := c.pullRequestsCreate owner repoName pr w
    ⟨ans.2, [RemoteCall.pullRequestsCreate owner repoName pr], GoOut.returned (
      match ans.1 with
      | Except.error err => Except.error err
      | Except.ok createdPR => Except.ok ("Pull Request #" ++ toString createdPR.GetNumber
          ++ " created: " ++ createdPR.GetHTMLURL))⟩

def listIssues {σ : Type} (c : GithubClient σ) (args : GoMap) (w : σ) : AdapterRun σ :=
  match getString args "owner" with
  | none => failWith w "owner required"
  | some owner =>
  match getString args "repo" with
  | none => failWith w "repository name required"
  | some repoName =>
    let state := match getString args "state" with
      | some s => s
      | none => "open"
    let opt : IssueListByRepoOptions := ⟨state⟩
    let ans := c.issuesListByRepo owner repoName opt w
    ⟨ans.2, [RemoteCall.issuesListByRepo owner repoName opt], GoOut.returned (
      match ans.1 with
      | Except.error err => Except.error err
      | Except.ok issues => Except.ok (marshalIndentSlice (collect (fun issue =>
        [("number", FieldVal.int issue.GetNumber),
         ("title", FieldVal.str issue.GetTitle),
         ("state", FieldVal.str issue.GetState),
         ("url", FieldVal.str issue.GetHTMLURL),
         ("user", FieldVal.str (User.GetLogin issue.user))]) issues)))⟩

def createIssue {σ : Type} (c : GithubClient σ) (args : GoMap) (w : σ) : AdapterRun σ :=
  match getString args "owner" with
  | none => failWith w "owner required"
  | some owner =>
  match getString args "repo" with
  | none => failWith w "repository name required"
  | some repoName =>
  match getString args "title" with
  | none => failWith w "title required"
  | some title =>
    let issue : IssueRequest := ⟨some title, getString args "body"⟩
    let ans := c.issuesCreate owner repoName issue w
    ⟨ans.2, [RemoteCall.issuesCreate owner repoName issue], GoOut.returned (
      match ans.1 with
      | Except.error err => Except.error err
      | Except.ok createdIssue => Except.ok ("Issue #" ++ toString createdIssue.GetNumber
          ++ " created: " ++ createdIssue.GetHTMLURL))⟩

def createFile {σ : Type} (c : GithubClient σ) (args : GoMap) (w : σ) : AdapterRun σ :=
  match getString args "owner" with
  | none => failWith w "owner required"
  | some owner =>
  match getString args "repo" with
  | none => failWith w "repository name required"
  | some repoName =>
  match getString args "path" with
  | none => failWith w "file path required"
  | some path =>
  match getString args "content" with
  | none => failWith w "file content required"
  | some content =>
  match getString args "message" with
  | none => failWith w "commit message required"
  | some message =>
    let branch := match getString args "branch" with
      | some b => b
      | none => "main"
    let fileOptions : RepositoryContentFileOptions :=
      ⟨some message, content, none, some branch⟩
    let ans := c.repositoriesCreateFile owner repoName path fileOptions w
    ⟨ans.2, [RemoteCall.repositoriesCreateFile owner repoName path fileOptions],
      GoOut.returned (
      match ans.1 with
      | Except.error err => Except.error err
      | Except.ok result => Except.ok ("File \x27" ++ path
          ++ "\x27 created successfully. Commit SHA: " ++ result.commit.GetSHA))⟩

def updateFile {σ : Type} (c : GithubClient σ) (args : GoMap) (w : σ) : AdapterRun σ :=
  match getString args "owner" with
  | none => failWith w "owner required"
  | some owner =>
  match getString args "repo" with
  | none => failWith w "repository name required"
  | some repoName =>
  match getString args "path" with
  | none => failWith w "file path required"
  | some path =>
  match getString args "content" with
  | none => failWith w "file content required"
  | some content =>
  match getString args "message" with
  | none => failWith w "commit message required"
  | some message =>
  match getString args "sha" with
  | none => failWith w "file SHA required"
  | some sha =>
    let branch := match getString args "branch" with
      | some b => b
      | none => "main"
    let fileOptions : RepositoryContentFileOptions :=
      ⟨some message, content, some sha, some branch⟩
    let ans := c.repositoriesUpdateFile owner repoName path fileOptions w
    ⟨ans.2, [RemoteCall.repositoriesUpdateFile owner repoName path fileOptions],
      GoOut.returned (
      match ans.1 with
      | Except.error err => Except.error err
      | Except.ok result => Except.ok ("File \x27" ++ path
          ++ "\x27 updated successfully. Commit SHA: " ++ result.commit.GetSHA))⟩

/-- The message of the Go runtime panic on a nil pointer dereference. -/
def nilDereference : String :=
  "runtime error: invalid memory address or nil pointer dereference"

/-- The adapter of `github_get_file`.  After a successful `GetContents` the
source calls `file.GetContent()` without looking at `file`; go-github answers a
directory path with a nil `file` and the listing, and `GetContent` reads
`r.Encoding` of its receiver first, so on a nil `file` the call panics. -/
def getFile {σ : Type} (c : GithubClient σ) (args : GoMap) (w : σ) : AdapterRun σ :=
  match getString args "owner" with
  | none => failWith w "owner required"
  | some owner =>
  match getString args "repo" with
  | none => failWith w "repository name required"
  | some repoName =>
  match getString args "path" with
  | none => failWith w "file path required"
  | some path =>
    let branch := match getString args "branch" with
      | some b => b
      | none => "main"
    let opt : RepositoryContentGetOptions := ⟨branch⟩
    let ans := c.repositoriesGetContents owner repoName path opt w
    ⟨ans.2, [RemoteCall.repositoriesGetContents owner repoName path opt],
      match ans.1 with
      | Except.error err => GoOut.returned (Except.error err)
      | Except.ok (none, _) => GoOut.panicked nilDereference
      | Except.ok (some file, _) =>
        match file.GetContent c.decodeBase64 with
        | Except.error err => GoOut.returned (Except.error err)
        | Except.ok content => GoOut.returned (Except.ok (marshalIndentMap
          [("path", FieldVal.str file.GetPath),
           ("content", FieldVal.str content),
           ("sha", FieldVal.str file.GetSHA),
           ("size", FieldVal.int file.GetSize),
           ("encoding", FieldVal.str file.GetEncoding),
           ("url", FieldVal.str file.GetHTMLURL)]))⟩

def listFiles {σ : Type} (c : GithubClient σ) (args : GoMap) (w : σ) : AdapterRun σ :=
  match getString args "owner" with
  | none => failWith w "owner required"
  | some owner =>
  match getString args "repo" with
  | none => failWith w "repository name required"
  | some repoName =>
    let path := match getString args "path" with
      | some p => p
      | none => ""
    let branch := match getString args "branch" with
      | some b => b
      | none => "main"
    let opt : RepositoryContentGetOptions := ⟨branch⟩
    let ans := c.repositoriesGetContents owner repoName path opt w
    ⟨ans.2, [RemoteCall.repositoriesGetContents owner repoName path opt], GoOut.returned (
      match ans.1 with
      | Except.error err => Except.error err
      | Except.ok (_, contents) => Except.ok (marshalIndentSlice (collect (fun item =>
        [("name", FieldVal.str item.GetName),
         ("path", FieldVal.str item.GetPath),
         ("type", FieldVal.str item.GetType),
         ("size", FieldVal.int item.GetSize),
         ("sha", FieldVal.str item.GetSHA),
         ("url", FieldVal.str item.GetHTMLURL)]) contents)))⟩

/-! ## The dispatcher (main.go:114-399) -/

/-- A `Property` of type `string`. -/
def stringProp (description : String) : Property := ⟨"string", description⟩

/-- The static tool catalog.  A `Required` field the literal leaves out is the
nil slice, here `[]`. -/
def listTools : ToolsListResult :=
  ⟨[⟨"github_list_repos", "Lista repositorios del usuario autenticado",
      ⟨"object", [("type", stringProp "Tipo: all, owner, member")], []⟩⟩,
    ⟨"github_create_repo", "Crea un nuevo repositorio",
      ⟨"object",
        [("name", stringProp "Nombre del repositorio"),
         ("description", stringProp "Descripción del repositorio"),
         ("private", ⟨"boolean", "Repositorio privado"⟩)],
        ["name"]⟩⟩,
    ⟨"github_get_repo", "Obtiene información de un repositorio",
      ⟨"object",
        [("owner", stringProp "Propietario del repositorio"),
         ("repo", stringProp "Nombre del repositorio")],
        ["owner", "repo"]⟩⟩,
    ⟨"github_list_branches", "Lista ramas de un repositorio",
      ⟨"object",
        [("owner", stringProp "Propietario del repositorio"),
         ("repo", stringProp "Nombre del repositorio")],
        ["owner", "repo"]⟩⟩,
    ⟨"github_list_prs", "Lista pull requests de un repositorio",
      ⟨"object",
        [("owner", stringProp "Propietario del repositorio"),
         ("repo", stringProp "Nombre del repositorio"),
         ("state", stringProp "Estado: open, closed, all")],
        ["owner", "repo"]⟩⟩,
    ⟨"github_create_pr", "Crea un nuevo pull request",
      ⟨"object",
        [("owner", stringProp "Propietario del repositorio"),
         ("repo", stringProp "Nombre del repositorio"),
         ("title", stringProp "Título del PR"),
         ("body", stringProp "Descripción del PR"),
         ("head", stringProp "Rama origen"),
         ("base", stringProp "Rama destino")],
        ["owner", "repo", "title", "head", "base"]⟩⟩,
    ⟨"github_list_issues", "Lista issues de un repositorio",
      ⟨"object",
        [("owner", stringProp "Propietario del repositorio"),
         ("repo", stringProp "Nombre del repositorio"),
         ("state", stringProp "Estado: open, closed, all")],
        ["owner", "repo"]⟩⟩,
    ⟨"github_create_issue", "Crea un nuevo issue",
      ⟨"object",
        [("owner", stringProp "Propietario del repositorio"),
         ("repo", stringProp "Nombre del repositorio"),
         ("title", stringProp "Título del issue"),
         ("body", stringProp "Descripción del issue")],
        ["owner", "repo", "title"]⟩⟩,
    ⟨"github_create_file", "Crea un nuevo archivo en el repositorio",
      ⟨"object",
        [("owner", stringProp "Propietario del repositorio"),
         ("repo", stringProp "Nombre del repositorio"),
         ("path", stringProp "Ruta del archivo"),
         ("content", stringProp "Contenido del archivo"),
         ("message", stringProp "Mensaje del commit"),
         ("branch", stringProp "Rama (opcional, default: main)")],
        ["owner", "repo", "path", "content", "message"]⟩⟩,
    ⟨"github_update_file", "Actualiza un archivo existente en el repositorio",
      ⟨"object",
        [("owner", stringProp "Propietario del repositorio"),
         ("repo", stringProp "Nombre del repositorio"),
         ("path", stringProp "Ruta del archivo"),
         ("content", stringProp "Nuevo contenido del archivo"),
         ("message", stringProp "Mensaje del commit"),
         ("sha", stringProp "SHA del archivo actual"),
         ("branch", stringProp "Rama (opcional, default: main)")],
        ["owner", "repo", "path", "content", "message", "sha"]⟩⟩,
    ⟨"github_get_file", "Obtiene el contenido de un archivo del repositorio",
      ⟨"object",
        [("owner", stringProp "Propietario del repositorio"),
         ("repo", stringProp "Nombre del repositorio"),
         ("path", stringProp "Ruta del archivo"),
         ("branch", stringProp "Rama (opcional, default: main)")],
        ["owner", "repo", "path"]⟩⟩,
    ⟨"github_list_files", "Lista archivos y directorios en una ruta del repositorio",
      ⟨"object",
        [("owner", stringProp "Propietario del repositorio"),
         ("repo", stringProp "Nombre del repositorio"),
         ("path", stringProp "Ruta del directorio (opcional, default: raíz)"),
         ("branch", stringProp "Rama (opcional, default: main)")],
        ["owner", "repo"]⟩⟩]⟩

/-- The `switch name` of `callTool` (main.go:363-390): the adapter a tool name
is routed to, `none` for the default case. -/
def selectAdapter {σ : Type} (c : GithubClient σ) (name : String) :
    Option (GoMap → σ → AdapterRun σ) :=
  if name = "github_list_repos" then some (listRepositories c)
  else if name = "github_create_repo" then some (createRepository c)
  else if name = "github_get_repo" then some (getRepository c)
  else if name = "github_list_branches" then some (listBranches c)
  else if name = "github_list_prs" then some (listPullRequests c)
  else if name = "github_create_pr" then some (createPullRequest c)
  else if name = "github_list_issues" then some (listIssues c)
  else if name = "github_create_issue" then some (createIssue c)
  else if name = "github_create_file" then some (createFile c)
  else if name = "github_update_file" then some (updateFile c)
  else if name = "github_get_file" then some (getFile c)
  else if name = "github_list_files" then some (listFiles c)
  else none

/-- The end of `callTool` (main.go:392-398): the adapter's error is passed on,
its text is wrapped in one text content item; a panic unwinds through. -/
def wrapText (out : GoOut (Except String String)) : GoOut (Except String ToolCallResult) :=
  match out with
  | GoOut.panicked msg => GoOut.panicked msg
  | GoOut.returned (Except.error err) => GoOut.returned (Except.error err)
  | GoOut.returned (Except.ok text) => GoOut.returned (Except.ok ⟨[⟨"text", text⟩]⟩)

def callTool {σ : Type} (c : GithubClient σ) (params : GoMap) (w : σ) :
    Exec σ (Except String ToolCallResult) :=
  match getString params "name" with
  | none => failWith w "tool name required"
  | some name =>
    let arguments := match asMap (lookup params "arguments") with
      | some m => m
      | none => []
    match selectAdapter c name with
    | none => failWith w "tool not found"
    | some adapter =>
      let run := adapter arguments w
      ⟨run.world, run.calls, wrapText run.out⟩

/-- The response `handleRequest` starts from: version 2.0 and the request's id,
0 for a nil id. -/
def baseResponse (req : JSONRPCRequest) : JSONRPCResponse :=
  let id := match req.id with
    | GoVal.nil => GoVal.int 0
    | v => v
  ⟨"2.0", id, none, none⟩

/-- The assignment `response.Error = &JSONRPCError{Code: code, Message: msg}`. -/
def withError (response : JSONRPCResponse) (code : Int) (msg : String) : JSONRPCResponse :=
  ⟨response.jsonrpc, response.id, response.result, some ⟨code, msg, GoVal.nil⟩⟩

/-- The assignment `response.Result = payload`. -/
def withResult (response : JSONRPCResponse) (payload : Payload) : JSONRPCResponse :=
  ⟨response.jsonrpc, response.id, some payload, response.error⟩

/-- The result of `initialize`. -/
def initializeResult : GoVal :=
  GoVal.map
    [("protocolVersion", GoVal.str "2024-11-05"),
     ("capabilities", GoVal.map [("tools", GoVal.map [])]),
     ("serverInfo", GoVal.map
       [("name", GoVal.str "github-mcp"), ("version", GoVal.str "1.0.0")])]

def handleRequest {σ : Type} (c : GithubClient σ) (req : JSONRPCRequest) (w : σ) :
    Exec σ JSONRPCResponse :=
  let response := baseResponse req
  if req.jsonrpc ≠ "2.0" then
    ⟨w, [], GoOut.returned
      (withError response (-32600) "Invalid Request: jsonrpc must be \x272.0\x27")⟩
  else if req.method = "" then
    ⟨w, [], GoOut.returned (withError response (-32600) "Invalid Request: method is required")⟩
  else if req.method = "initialize" then
    ⟨w, [], GoOut.returned (withResult response (Payload.value initializeResult))⟩
  else if req.method = "initialized" then
    ⟨w, [], GoOut.returned (withResult response (Payload.value (GoVal.map [])))⟩
  else if req.method = "tools/list" then
    ⟨w, [], GoOut.returned (withResult response (Payload.toolsList listTools))⟩
  else if req.method = "tools/call" then
    let run := callTool c req.params w
    ⟨run.world, run.calls,
      match run.out with
      | GoOut.panicked msg => GoOut.panicked msg
      | GoOut.returned (Except.error err) => GoOut.returned (withError response (-32603) err)
      | GoOut.returned (Except.ok result) =>
        GoOut.returned (withResult response (Payload.toolCall result))⟩
  else
    ⟨w, [], GoOut.returned (withError response (-32601) "Method not found")⟩

/-! ## Stub collaborators used to evaluate the program on concrete inputs -/

/-- A directory entry. -/
def sampleEntry : RepositoryContent :=
  ⟨some "dir", none, some 0, some "src", some "docs/src", none, some "abc", none⟩

/-- A file object with plain content. -/
def sampleFile : RepositoryContent :=
  ⟨some "file", some "", some 2, some "a.txt", some "a.txt", some "hi", some "def", none⟩

/-- An empty repository entity. -/
def sampleRepo : Repository :=
  ⟨some "r", none, none, some "https://github.com/o/r", none, none, none, none, none, none⟩

/-- A stub collaborator whose state counts the invocations.  It answers the
path `docs` as a directory (no file object, a listing) and any other path as a
file. -/
def stubClient : GithubClient Nat where
  repositoriesList := fun _ _ n => (Except.ok [sampleRepo], n + 1)
  repositoriesCreate := fun _ _ n => (Except.ok sampleRepo, n + 1)
  repositoriesGet := fun _ _ n => (Except.ok sampleRepo, n + 1)
  repositoriesListBranches := fun _ _ n => (Except.ok [], n + 1)
  pullRequestsList := fun _ _ _ n => (Except.ok [], n + 1)
  pullRequestsCreate := fun _ _ _ n =>
    (Except.ok ⟨some 7, none, none, some "https://github.com/o/r/pull/7", none, none, none⟩,
      n + 1)
  issuesListByRepo := fun _ _ _ n => (Except.ok [], n + 1)
  issuesCreate := fun _ _ _ n => (Except.error "403 Forbidden", n + 1)
  repositoriesCreateFile := fun _ _ _ _ n => (Except.ok ⟨none, ⟨some "c0ffee"⟩⟩, n + 1)
  repositoriesUpdateFile := fun _ _ _ _ n => (Except.ok ⟨none, ⟨some "c0ffee"⟩⟩, n + 1)
  repositoriesGetContents := fun _ _ path _ n =>
    (if path = "docs" then Except.ok (none, [sampleEntry])
     else Except.ok (some sampleFile, []), n + 1)
  decodeBase64 := fun s => Except.ok s

/-- The request `tools/call` of tool `name` with the given arguments, id 1. -/
def toolCallRequest (name : String) (arguments : GoMap) : JSONRPCRequest :=
  ⟨"2.0", GoVal.float64 0x3FF0000000000000, "tools/call",
    [("name", GoVal.str name), ("arguments", GoVal.map arguments)]⟩

/-- The required-argument table of the specification (section 4.2), keyed by
the catalog name of each tool, the arguments in the listed order. -/
def specRequired : List (String × List String) :=
  [("github_list_repos", []),
   ("github_create_repo", ["name"]),
   ("github_get_repo", ["owner", "repo"]),
   ("github_list_branches", ["owner", "repo"]),
   ("github_list_prs", ["owner", "repo"]),
   ("github_create_pr", ["owner", "repo", "title", "head", "base"]),
   ("github_list_issues", ["owner", "repo"]),
   ("github_create_issue", ["owner", "repo", "title"]),
   ("github_create_file", ["owner", "repo", "path", "content", "message"]),
   ("github_update_file", ["owner", "repo", "path", "content", "message", "sha"]),
   ("github_get_file", ["owner", "repo", "path"]),
   ("github_list_files", ["owner", "repo"])]

/-- The first argument of `required`, in the listed order, that is absent from
`args` or is not a string. -/
def firstMissing (args : GoMap) (required : List String) : Option String :=
  required.find? (fun k => (getString args k).isNone)

/-- The phrase by which the adapters name an argument in a failure message
(main.go:432, 457, 462, 568, 573, 578, 681, 686, 691, 742). -/
def fieldLabel (k : String) : String :=
  if k = "repo" ∨ k = "name" then "repository name"
  else if k = "head" then "head branch"
  else if k = "base" then "base branch"
  else if k = "path" then "file path"
  else if k = "content" then "file content"
  else if k = "message" then "commit message"
  else if k = "sha" then "file SHA"
  else k

/-- The names of the advertised catalog. -/
def catalogNames : List String :=
  listTools.tools.map Tool.name

/-- Arguments of `github_update_file` whose optional `branch` is a boolean. -/
def updateWithBoolBranch : GoMap :=
  [("owner", GoVal.str "o"), ("repo", GoVal.str "r"), ("path", GoVal.str "p"),
   ("content", GoVal.str "x"), ("message", GoVal.str "m"), ("sha", GoVal.str "s"),
   ("branch", GoVal.bool true)]

/-- A `tools/call` of `github_get_file` on the path `docs`, which the stub
answers as a directory. -/
def getFileOnDirectory : JSONRPCRequest :=
  toolCallRequest "github_get_file"
    [("owner", GoVal.str "o"), ("repo", GoVal.str "r"), ("path", GoVal.str "docs")]

/-- A `tools/call` of `github_create_issue` without id; the stub's remote call
fails. -/
def createIssueNoId : JSONRPCRequest :=
  ⟨"2.0", GoVal.nil, "tools/call",
    [("name", GoVal.str "github_create_issue"),
     ("arguments", GoVal.map
       [("owner", GoVal.str "o"), ("repo", GoVal.str "r"), ("title", GoVal.str "t")])]⟩

/-- The notification `initialized` sent with a string id. -/
def initializedRequest : JSONRPCRequest :=
  ⟨"2.0", GoVal.str "a", "initialized", []⟩

/-- A response is an error response with the given code and message. -/
def IsError (resp : JSONRPCResponse) (code : Int) (msg : String) : Prop :=
  resp.result = none ∧ ∃ e, resp.error = some e ∧ e.code = code ∧ e.message = msg

/-- A run ends by returning an error response with the given code and message. -/
def RespondsError {σ : Type} (run : Exec σ JSONRPCResponse) (code : Int) (msg : String) : Prop :=
  ∃ resp, run.out = GoOut.returned resp ∧ IsError resp code msg

/-- Arguments naming the repository `o/r` and nothing else. -/
def ownerRepoArgs : GoMap :=
  [("owner", GoVal.str "o"), ("repo", GoVal.str "r")]

/-- One member `"key": value` of an indented JSON object. -/
def memberText (e : String × FieldVal) : String :=
  quoteJSON e.1 ++ ": " ++ e.2.marshal.getD ""

/-- The indented JSON object written for a result map that is an element of an
array: its members in key order, four spaces deep. -/
def objectText (m : ResultMap) : String :=
  bracket 1 "\x7b" "\x7d" ((sortByKey m).map memberText)

/-- The indented JSON array of the given element texts. -/
def arrayText (elems : List String) : String :=
  bracket 0 "[" "]" elems

/-- A result map encodes: each of its values does. -/
def Encodes (m : ResultMap) : Prop :=
  ∀ e ∈ m, ∃ s, e.2.marshal = some s

/-- The text `part` occurs in `text`. -/
def Embeds (text part : String) : Prop :=
  part.toList <:+: text.toList

/-- A successful answer of `CreateFile`: the stored file with its HTML URL and
the commit. -/
def sampleCreated : RepositoryContentResponse :=
  ⟨some ⟨some "file", none, some 1, some "p", some "p", none, some "abc",
      some "https://github.com/o/r/blob/main/p"⟩,
    ⟨some "c0ffee"⟩⟩

/-- The stub collaborator, with file writes answered by `sampleCreated`. -/
def fileClient : GithubClient Nat :=
  { stubClient with
    repositoriesCreateFile := fun _ _ _ _ n => (Except.ok sampleCreated, n + 1)
    repositoriesUpdateFile := fun _ _ _ _ n => (Except.ok sampleCreated, n + 1) }

/-- Arguments of `github_create_file` for the file `p`. -/
def createFileArgs : GoMap :=
  [("owner", GoVal.str "o"), ("repo", GoVal.str "r"), ("path", GoVal.str "p"),
   ("content", GoVal.str "x"), ("message", GoVal.str "m")]

/-- Arguments of `github_create_pr`. -/
def createPrArgs : GoMap :=
  [("owner", GoVal.str "o"), ("repo", GoVal.str "r"), ("title", GoVal.str "t"),
   ("head", GoVal.str "dev"), ("base", GoVal.str "main")]

/-! ## The transport loop (main.go:77-96) -/

/-- The run of the loop of `main`: the remote state afterwards, the remote
calls issued, the lines written to standard output, and whether the loop ran to
the end of the input or the process died in a panic. -/
structure MainRun (σ : Type) where
  world : σ
  calls : List RemoteCall
  output : List String
  exit : GoOut Unit

/-- The loop `for scanner.Scan()` of `main`, on the lines the scanner yields in
order (a `bufio.Scanner` with the default buffer ends the input at a line of
64 KiB or more, so such a line and what follows it are not among them).
`unmarshal` is `json.Unmarshal` into a fresh `JSONRPCRequest` (`none` for an
error) and `marshal` is `json.Marshal` of the response; both belong to
`encoding/json`.  A panic of `handleRequest` is not recovered: it ends the
process, and nothing more is read or written. -/
def mainLoop {σ : Type} (unmarshal : String → Option JSONRPCRequest)
    (marshal : JSONRPCResponse → Except String String) (c : GithubClient σ) :
    List String → σ → MainRun σ
  | [], w => ⟨w, [], [], GoOut.returned ()⟩
  | line :: rest, w =>
    if line = "" then mainLoop unmarshal marshal c rest w
    else
      match unmarshal line with
      | none => mainLoop unmarshal marshal c rest w
      | some req =>
        let run := handleRequest c req w
        match run.out with
        | GoOut.panicked msg => ⟨run.world, run.calls, [], GoOut.panicked msg⟩
        | GoOut.returned resp =>
          let later := mainLoop unmarshal marshal c rest run.world
          match marshal resp with
          | Except.error _ =>
            ⟨later.world, run.calls ++ later.calls, later.output, later.exit⟩
          | Except.ok output =>
            ⟨later.world, run.calls ++ later.calls, output :: later.output, later.exit⟩

/-- The input line of the request `getFileOnDirectory`. -/
def getFileLine : String :=
  "\x7b\"jsonrpc\":\"2.0\",\"id\":1,\"method\":\"tools/call\",\"params\":"
    ++ "\x7b\"name\":\"github_get_file\",\"arguments\":"
    ++ "\x7b\"owner\":\"o\",\"repo\":\"r\",\"path\":\"docs\"\x7d\x7d\x7d"

/-- The input line of the request `initializedRequest`. -/
def initializedLine : String :=
  "\x7b\"jsonrpc\":\"2.0\",\"id\":\"a\",\"method\":\"initialized\"\x7d"

/-- What `json.Unmarshal` makes of the two request lines above; any other line
is taken as unparsable. -/
def stubUnmarshal (line : String) : Option JSONRPCRequest :=
  if line = getFileLine then some getFileOnDirectory
  else if line = initializedLine then some initializedRequest
  else none

/-- The lines of the input that are neither blank nor unparsable. -/
def requestLines (unmarshal : String → Option JSONRPCRequest) (lines : List String) :
    List String :=
  lines.filter (fun line => decide (line ≠ "") && (unmarshal line).isSome)

/-! ## The remote calls of a run, read on the collaborator -/

/-- The answer of the collaborator to one remote call. -/
inductive RemoteAnswer where
  | repositories (a : Except String (List Repository)) : RemoteAnswer
  | repository (a : Except String Repository) : RemoteAnswer
  | branches (a : Except String (List Branch)) : RemoteAnswer
  | pullRequests (a : Except String (List PullRequest)) : RemoteAnswer
  | pullRequest (a : Except String PullRequest) : RemoteAnswer
  | issues (a : Except String (List Issue)) : RemoteAnswer
  | issue (a : Except String Issue) : RemoteAnswer
  | contentResponse (a : Except String RepositoryContentResponse) : RemoteAnswer
  | contents (a : Except String (Option RepositoryContent × List RepositoryContent)) :
      RemoteAnswer

/-- The error of a `(value, error)` pair, `none` for a nil error. -/
def errorOf {α : Type} (a : Except String α) : Option String :=
  match a with
  | Except.error e => some e
  | Except.ok _ => none

/-- The error the collaborator answered, `none` for a nil error. -/
def RemoteAnswer.failure (a : RemoteAnswer) : Option String :=
  match a with
  | RemoteAnswer.repositories a => errorOf a
  | RemoteAnswer.repository a => errorOf a
  | RemoteAnswer.branches a => errorOf a
  | RemoteAnswer.pullRequests a => errorOf a
  | RemoteAnswer.pullRequest a => errorOf a
  | RemoteAnswer.issues a => errorOf a
  | RemoteAnswer.issue a => errorOf a
  | RemoteAnswer.contentResponse a => errorOf a
  | RemoteAnswer.contents a => errorOf a

/-- One invocation of the collaborator: the client method a logged call names,
applied to the logged arguments in the remote state `w`; the answer and the
remote state afterwards. -/
def GithubClient.perform {σ : Type} (c : GithubClient σ) (call : RemoteCall) (w : σ) :
    RemoteAnswer × σ :=
  match call with
  | RemoteCall.repositoriesList user opt =>
    (RemoteAnswer.repositories (c.repositoriesList user opt w).1,
      (c.repositoriesList user opt w).2)
  | RemoteCall.repositoriesCreate org repo =>
    (RemoteAnswer.repository (c.repositoriesCreate org repo w).1,
      (c.repositoriesCreate org repo w).2)
  | RemoteCall.repositoriesGet owner repo =>
    (RemoteAnswer.repository (c.repositoriesGet owner repo w).1,
      (c.repositoriesGet owner repo w).2)
  | RemoteCall.repositoriesListBranches owner repo =>
    (RemoteAnswer.branches (c.repositoriesListBranches owner repo w).1,
      (c.repositoriesListBranches owner repo w).2)
  | RemoteCall.pullRequestsList owner repo opt =>
    (RemoteAnswer.pullRequests (c.pullRequestsList owner repo opt w).1,
      (c.pullRequestsList owner repo opt w).2)
  | RemoteCall.pullRequestsCreate owner repo pr =>
    (RemoteAnswer.pullRequest (c.pullRequestsCreate owner repo pr w).1,
      (c.pullRequestsCreate owner repo pr w).2)
  | RemoteCall.issuesListByRepo owner repo opt =>
    (RemoteAnswer.issues (c.issuesListByRepo owner repo opt w).1,
      (c.issuesListByRepo owner repo opt w).2)
  | RemoteCall.issuesCreate owner repo issue =>
    (RemoteAnswer.issue (c.issuesCreate owner repo issue w).1,
      (c.issuesCreate owner repo issue w).2)
  | RemoteCall.repositoriesCreateFile owner repo path opt =>
    (RemoteAnswer.contentResponse (c.repositoriesCreateFile owner repo path opt w).1,
      (c.repositoriesCreateFile owner repo path opt w).2)
  | RemoteCall.repositoriesUpdateFile owner repo path opt =>
    (RemoteAnswer.contentResponse (c.repositoriesUpdateFile owner repo path opt w).1,
      (c.repositoriesUpdateFile owner repo path opt w).2)
  | RemoteCall.repositoriesGetContents owner repo path opt =>
    (RemoteAnswer.contents (c.repositoriesGetContents owner repo path opt w).1,
      (c.repositoriesGetContents owner repo path opt w).2)

/-- The run of the adapter `A` on `args` performs exactly the remote call
`call`: the log holds that call alone; the remote state afterwards is the one
the collaborator leaves after that one invocation from `w`; an error the
collaborator answers is returned as it is; and the outcome depends on the
collaborator only through its answer to that invocation (and through its
base64 decoder). -/
def SendsExactly {σ : Type} (A : GithubClient σ → GoMap → σ → AdapterRun σ)
    (c : GithubClient σ) (args : GoMap) (w : σ) (call : RemoteCall) : Prop :=
  (A c args w).calls = [call] ∧
  (A c args w).world = (c.perform call w).2 ∧
  (∀ e, (c.perform call w).1.failure = some e →
    (A c args w).out = GoOut.returned (Except.error e)) ∧
  (∀ (c2 : GithubClient σ) (w2 : σ), c2.decodeBase64 = c.decodeBase64 →
    (c2.perform call w2).1 = (c.perform call w).1 →
    (A c2 args w2).out = (A c args w).out)

/-! ## Properties -/

theorem getString_eq_none_iff (args : GoMap) (k : String) :
    getString args k = none ↔ ∀ s, lookup args k ≠ GoVal.str s := by
  unfold getString asString
  cases lookup args k <;> simp

theorem withError_fields (r : JSONRPCResponse) (code : Int) (msg : String) :
    (withError r code msg).jsonrpc = r.jsonrpc ∧ (withError r code msg).id = r.id ∧
    (withError r code msg).result = r.result ∧
    (withError r code msg).error = some ⟨code, msg, GoVal.nil⟩ := by
  simp [withError]

theorem withResult_fields (r : JSONRPCResponse) (p : Payload) :
    (withResult r p).jsonrpc = r.jsonrpc ∧ (withResult r p).id = r.id ∧
    (withResult r p).result = some p ∧ (withResult r p).error = r.error := by
  simp [withResult]

theorem baseResponse_fields (req : JSONRPCRequest) :
    (baseResponse req).jsonrpc = "2.0" ∧ (baseResponse req).result = none ∧
    (baseResponse req).error = none ∧
    (req.id = GoVal.nil → (baseResponse req).id = GoVal.int 0) ∧
    (req.id ≠ GoVal.nil → (baseResponse req).id = req.id) := by
  unfold baseResponse
  cases req.id <;> simp

/-- Every response `handleRequest` returns is the base response with either an
error or a result stored in it. -/
theorem handleRequest_returned_shape {σ : Type} (c : GithubClient σ) (req : JSONRPCRequest)
    (w : σ) (resp : JSONRPCResponse)
    (h : (handleRequest c req w).out = GoOut.returned resp) :
    (∃ code msg, resp = withError (baseResponse req) code msg) ∨
    (∃ p, resp = withResult (baseResponse req) p) := by
  unfold handleRequest at h
  simp only at h
  split_ifs at h
  all_goals first
    | (simp only [GoOut.returned.injEq] at h; subst h
       first
         | exact Or.inl ⟨_, _, rfl⟩
         | exact Or.inr ⟨_, rfl⟩)
    | skip
  cases hc : (callTool c req.params w).out with
  | panicked msg => simp [hc] at h
  | returned r =>
    cases r with
    | error e => simp [hc] at h; subst h; exact Or.inl ⟨_, _, rfl⟩
    | ok v => simp [hc] at h; subst h; exact Or.inr ⟨_, rfl⟩

/-- C1: every response `handleRequest` returns, on any branch and whatever the
remote collaborator answers, has jsonrpc "2.0" and the id of the request, or the
integer 0 when the request's id is nil (no id supplied). -/
theorem handleRequest_echoes_id {σ : Type} (c : GithubClient σ) (req : JSONRPCRequest)
    (w : σ) (resp : JSONRPCResponse)
    (h : (handleRequest c req w).out = GoOut.returned resp) :
    resp.jsonrpc = "2.0" ∧
    (req.id = GoVal.nil → resp.id = GoVal.int 0) ∧
    (req.id ≠ GoVal.nil → resp.id = req.id) := by
  have hb := baseResponse_fields req
  rcases handleRequest_returned_shape c req w resp h with ⟨code, msg, rfl⟩ | ⟨p, rfl⟩
  · have hf := withError_fields (baseResponse req) code msg
    rw [hf.1, hf.2.1]
    exact ⟨hb.1, hb.2.2.2.1, hb.2.2.2.2⟩
  · have hf := withResult_fields (baseResponse req) p
    rw [hf.1, hf.2.1]
    exact ⟨hb.1, hb.2.2.2.1, hb.2.2.2.2⟩

/-- Witness of C1: a `tools/call` without id whose remote call fails is answered
with id 0. -/
theorem handleRequest_echoes_id_witness :
    ∃ resp, (handleRequest stubClient createIssueNoId 0).out = GoOut.returned resp ∧
      resp.jsonrpc = "2.0" ∧ resp.id = GoVal.int 0 :=
  ⟨_, rfl, (handleRequest_echoes_id stubClient createIssueNoId 0 _ rfl).1,
    (handleRequest_echoes_id stubClient createIssueNoId 0 _ rfl).2.1 rfl⟩

/-- C2: every response `handleRequest` returns carries exactly one of a result
and an error; `initialized` gives the empty object as result, and `tools/call`
gives the adapter's result on success and error -32603 with the adapter's
message on failure. -/
theorem handleRequest_result_xor_error {σ : Type} (c : GithubClient σ) (req : JSONRPCRequest)
    (w : σ) (resp : JSONRPCResponse)
    (h : (handleRequest c req w).out = GoOut.returned resp) :
    ((resp.result ≠ none ∧ resp.error = none) ∨ (resp.result = none ∧ resp.error ≠ none)) ∧
    (req.jsonrpc = "2.0" → req.method = "initialized" →
      resp.result = some (Payload.value (GoVal.map [])) ∧ resp.error = none) ∧
    (req.jsonrpc = "2.0" → req.method = "tools/call" → ∀ r,
      (callTool c req.params w).out = GoOut.returned (Except.ok r) →
      resp.result = some (Payload.toolCall r) ∧ resp.error = none) ∧
    (req.jsonrpc = "2.0" → req.method = "tools/call" → ∀ e,
      (callTool c req.params w).out = GoOut.returned (Except.error e) →
      resp.result = none ∧ resp.error = some ⟨-32603, e, GoVal.nil⟩) := by
  have hb := baseResponse_fields req
  refine ⟨?_, ?_, ?_, ?_⟩
  · rcases handleRequest_returned_shape c req w resp h with ⟨code, msg, rfl⟩ | ⟨p, rfl⟩
    · right
      simp [withError, hb.2.1]
    · left
      simp [withResult, hb.2.2.1]
  · intro hv hm
    simp [handleRequest, hv, hm] at h
    subst h
    simp [withResult, hb.2.2.1]
  · intro hv hm r hr
    simp [handleRequest, hv, hm, hr] at h
    subst h
    simp [withResult, hb.2.2.1]
  · intro hv hm e he
    simp [handleRequest, hv, hm, he] at h
    subst h
    simp [withError, hb.2.1]

/-- Witness of C2: `initialized` is answered with the empty object and no
error. -/
theorem handleRequest_result_xor_error_witness :
    ∃ resp, (handleRequest stubClient initializedRequest 0).out = GoOut.returned resp ∧
      resp.result = some (Payload.value (GoVal.map [])) ∧ resp.error = none :=
  ⟨_, rfl, (handleRequest_result_xor_error stubClient initializedRequest 0 _ rfl).2.1 rfl rfl⟩

/-- C3: `handleRequest` checks the version first and answers -32600 "Invalid
Request: jsonrpc must be '2.0'" for any other version whatever the method; with
version "2.0" an empty method gives -32600 "Invalid Request: method is
required"; with version "2.0" and a non-empty method the answer is -32601
"Method not found" exactly when the method is none of initialize, initialized,
tools/list, tools/call. -/
theorem handleRequest_validation_order {σ : Type} (c : GithubClient σ) (req : JSONRPCRequest)
    (w : σ) :
    (req.jsonrpc ≠ "2.0" →
      RespondsError (handleRequest c req w) (-32600)
        "Invalid Request: jsonrpc must be \x272.0\x27") ∧
    (req.jsonrpc = "2.0" → req.method = "" →
      RespondsError (handleRequest c req w) (-32600) "Invalid Request: method is required") ∧
    (req.jsonrpc = "2.0" → req.method ≠ "" →
      (RespondsError (handleRequest c req w) (-32601) "Method not found" ↔
        req.method ∉ ["initialize", "initialized", "tools/list", "tools/call"])) := by
  have hb := baseResponse_fields req
  refine ⟨?_, ?_, ?_⟩
  · intro hv
    refine ⟨withError (baseResponse req) (-32600) "Invalid Request: jsonrpc must be \x272.0\x27",
      by simp [handleRequest, hv], ?_⟩
    simp [IsError, withError, hb.2.1]
  · intro hv hm
    refine ⟨withError (baseResponse req) (-32600) "Invalid Request: method is required",
      by simp [handleRequest, hv, hm], ?_⟩
    simp [IsError, withError, hb.2.1]
  · intro hv hm
    constructor
    · rintro ⟨resp, hout, hres, e, he, hcode, -⟩ hmem
      simp only [List.mem_cons, List.mem_singleton, List.not_mem_nil, or_false] at hmem
      rcases hmem with h1 | h1 | h1 | h1
      · simp [handleRequest, hv, h1] at hout
        subst hout
        simp [withResult] at hres
      · simp [handleRequest, hv, h1] at hout
        subst hout
        simp [withResult] at hres
      · simp [handleRequest, hv, h1] at hout
        subst hout
        simp [withResult] at hres
      · simp only [handleRequest, hv, h1] at hout
        cases hc : (callTool c req.params w).out with
        | panicked msg => simp [hc] at hout
        | returned r =>
          cases r with
          | error err =>
            simp [hc] at hout
            subst hout
            simp [withError] at he
            subst he
            simp at hcode
          | ok v =>
            simp [hc] at hout
            subst hout
            simp [withResult] at hres
    · intro hmem
      simp only [List.mem_cons, List.mem_singleton, List.not_mem_nil, or_false,
        not_or] at hmem
      refine ⟨withError (baseResponse req) (-32601) "Method not found",
        by simp [handleRequest, hv, hm, hmem.1, hmem.2.1, hmem.2.2.1, hmem.2.2.2], ?_⟩
      simp [IsError, withError, hb.2.1]

/-- Witness of C3: an unknown method with version "2.0". -/
theorem handleRequest_validation_order_witness :
    RespondsError (handleRequest stubClient ⟨"2.0", GoVal.nil, "ping", []⟩ 0) (-32601)
      "Method not found" :=
  ((handleRequest_validation_order stubClient ⟨"2.0", GoVal.nil, "ping", []⟩ 0).2.2
    rfl (by decide)).2 (by decide)

/-- C4 (the code on the failing input): when the remote answers `github_get_file`
with a directory listing, no file object and a nil error, `handleRequest` makes
the one remote call and then panics on the nil file; it returns no response. -/
theorem handleRequest_getFile_directory_panics :
    (stubClient.repositoriesGetContents "o" "r" "docs" ⟨"main"⟩ 0).1
      = Except.ok (none, [sampleEntry]) ∧
    (handleRequest stubClient getFileOnDirectory 0).out = GoOut.panicked nilDereference ∧
    (handleRequest stubClient getFileOnDirectory 0).calls
      = [RemoteCall.repositoriesGetContents "o" "r" "docs" ⟨"main"⟩] ∧
    ¬ ∃ resp, (handleRequest stubClient getFileOnDirectory 0).out = GoOut.returned resp := by
  refine ⟨rfl, rfl, rfl, ?_⟩
  rintro ⟨resp, h⟩
  have h2 : (handleRequest stubClient getFileOnDirectory 0).out
      = GoOut.panicked nilDereference := rfl
  rw [h2] at h
  cases h

/-! ## The adapters: validation, then one remote call -/

theorem firstMissing_eq_none (args : GoMap) (required : List String)
    (h : firstMissing args required = none) (k : String) (hk : k ∈ required) :
    ∃ s, getString args k = some s := by
  unfold firstMissing at h
  rw [List.find?_eq_none] at h
  have := h k hk
  cases hs : getString args k with
  | none => simp [hs] at this
  | some s => exact ⟨s, rfl⟩

theorem firstMissing_mem (args : GoMap) (required : List String) (k : String)
    (h : firstMissing args required = some k) :
    k ∈ required ∧ getString args k = none := by
  unfold firstMissing at h
  have h1 := List.mem_of_find?_eq_some h
  have h2 := List.find?_some h
  refine ⟨h1, ?_⟩
  cases hs : getString args k with
  | none => rfl
  | some s => simp [hs] at h2

theorem firstMissing_of_missing (args : GoMap) (required : List String) (k : String)
    (hk : k ∈ required) (h : getString args k = none) :
    ∃ k', firstMissing args required = some k' := by
  cases hf : firstMissing args required with
  | some k' => exact ⟨k', rfl⟩
  | none =>
    obtain ⟨s, hs⟩ := firstMissing_eq_none args required hf k hk
    rw [h] at hs
    cases hs

theorem listRepositories_calls {σ : Type} (c : GithubClient σ) (args : GoMap) (w : σ) :
    (listRepositories c args w).calls = [RemoteCall.repositoriesList "" ⟨(getString args "type").getD "all"⟩] := by
  unfold listRepositories
  cases getString args "type" <;> rfl

theorem listRepositories_one_call {σ : Type} (c : GithubClient σ) (args : GoMap) (w : σ)
    (_h : firstMissing args [] = none) :
    (listRepositories c args w).calls.length = 1 := by
  rw [listRepositories_calls c args w ]
  rfl

theorem createRepository_fail {σ : Type} (c : GithubClient σ) (args : GoMap) (w : σ) (k : String)
    (h : firstMissing args ["name"] = some k) :
    createRepository c args w = failWith w (fieldLabel k ++ " required") := by
  unfold firstMissing at h
  unfold createRepository
  cases h0 : getString args "name" <;> simp [h0] at h ⊢
  · subst h; simp [fieldLabel]

theorem createRepository_calls {σ : Type} (c : GithubClient σ) (args : GoMap) (w : σ)
    (name : String)
    (h0 : getString args "name" = some name) :
    (createRepository c args w).calls = [RemoteCall.repositoriesCreate "" ⟨some name, getString args "description", getBool args "private"⟩] := by
  unfold createRepository
  simp only [h0]

theorem createRepository_one_call {σ : Type} (c : GithubClient σ) (args : GoMap) (w : σ)
    (h : firstMissing args ["name"] = none) :
    (createRepository c args w).calls.length = 1 := by
  obtain ⟨name, h0⟩ := firstMissing_eq_none args _ h "name" (by simp)
  rw [createRepository_calls c args w name h0]
  rfl

theorem getRepository_fail {σ : Type} (c : GithubClient σ) (args : GoMap) (w : σ) (k : String)
    (h : firstMissing args ["owner", "repo"] = some k) :
    getRepository c args w = failWith w (fieldLabel k ++ " required") := by
  unfold firstMissing at h
  unfold getRepository
  cases h0 : getString args "owner" <;> simp [h0] at h ⊢
  · subst h; simp [fieldLabel]
  cases h1 : getString args "repo" <;> simp [h1] at h ⊢
  · subst h; simp [fieldLabel]

theorem getRepository_calls {σ : Type} (c : GithubClient σ) (args : GoMap) (w : σ)
    (owner repo : String)
    (h0 : getString args "owner" = some owner)
    (h1 : getString args "repo" = some repo) :
    (getRepository c args w).calls = [RemoteCall.repositoriesGet owner repo] := by
  unfold getRepository
  simp only [h0, h1]

theorem getRepository_one_call {σ : Type} (c : GithubClient σ) (args : GoMap) (w : σ)
    (h : firstMissing args ["owner", "repo"] = none) :
    (getRepository c args w).calls.length = 1 := by
  obtain ⟨owner, h0⟩ := firstMissing_eq_none args _ h "owner" (by simp)
  obtain ⟨repo, h1⟩ := firstMissing_eq_none args _ h "repo" (by simp)
  rw [getRepository_calls c args w owner repo h0 h1]
  rfl

theorem listBranches_fail {σ : Type} (c : GithubClient σ) (args : GoMap) (w : σ) (k : String)
    (h : firstMissing args ["owner", "repo"] = some k) :
    listBranches c args w = failWith w (fieldLabel k ++ " required") := by
  unfold firstMissing at h
  unfold listBranches
  cases h0 : getString args "owner" <;> simp [h0] at h ⊢
  · subst h; simp [fieldLabel]
  cases h1 : getString args "repo" <;> simp [h1] at h ⊢
  · subst h; simp [fieldLabel]

theorem listBranches_calls {σ : Type} (c : GithubClient σ) (args : GoMap) (w : σ)
    (owner repo : String)
    (h0 : getString args "owner" = some owner)
    (h1 : getString args "repo" = some repo) :
    (listBranches c args w).calls = [RemoteCall.repositoriesListBranches owner repo] := by
  unfold listBranches
  simp only [h0, h1]

theorem listBranches_one_call {σ : Type} (c : GithubClient σ) (args : GoMap) (w : σ)
    (h : firstMissing args ["owner", "repo"] = none) :
    (listBranches c args w).calls.length = 1 := by
  obtain ⟨owner, h0⟩ := firstMissing_eq_none args _ h "owner" (by simp)
  obtain ⟨repo, h1⟩ := firstMissing_eq_none args _ h "repo" (by simp)
  rw [listBranches_calls c args w owner repo h0 h1]
  rfl

theorem listPullRequests_fail {σ : Type} (c : GithubClient σ) (args : GoMap) (w : σ) (k : String)
    (h : firstMissing args ["owner", "repo"] = some k) :
    listPullRequests c args w = failWith w (fieldLabel k ++ " required") := by
  unfold firstMissing at h
  unfold listPullRequests
  cases h0 : getString args "owner" <;> simp [h0] at h ⊢
  · subst h; simp [fieldLabel]
  cases h1 : getString args "repo" <;> simp [h1] at h ⊢
  · subst h; simp [fieldLabel]

theorem listPullRequests_calls {σ : Type} (c : GithubClient σ) (args : GoMap) (w : σ)
    (owner repo : String)
    (h0 : getString args "owner" = some owner)
    (h1 : getString args "repo" = some repo) :
    (listPullRequests c args w).calls = [RemoteCall.pullRequestsList owner repo ⟨(getString args "state").getD "open"⟩] := by
  unfold listPullRequests
  simp only [h0, h1]
  cases getString args "state" <;> rfl

theorem listPullRequests_one_call {σ : Type} (c : GithubClient σ) (args : GoMap) (w : σ)
    (h : firstMissing args ["owner", "repo"] = none) :
    (listPullRequests c args w).calls.length = 1 := by
  obtain ⟨owner, h0⟩ := firstMissing_eq_none args _ h "owner" (by simp)
  obtain ⟨repo, h1⟩ := firstMissing_eq_none args _ h "repo" (by simp)
  rw [listPullRequests_calls c args w owner repo h0 h1]
  rfl

theorem createPullRequest_fail {σ : Type} (c : GithubClient σ) (args : GoMap) (w : σ) (k : String)
    (h : firstMissing args ["owner", "repo", "title", "head", "base"] = some k) :
    createPullRequest c args w = failWith w (fieldLabel k ++ " required") := by
  unfold firstMissing at h
  unfold createPullRequest
  cases h0 : getString args "owner" <;> simp [h0] at h ⊢
  · subst h; simp [fieldLabel]
  cases h1 : getString args "repo" <;> simp [h1] at h ⊢
  · subst h; simp [fieldLabel]
  cases h2 : getString args "title" <;> simp [h2] at h ⊢
  · subst h; simp [fieldLabel]
  cases h3 : getString args "head" <;> simp [h3] at h ⊢
  · subst h; simp [fieldLabel]
  cases h4 : getString args "base" <;> simp [h4] at h ⊢
  · subst h; simp [fieldLabel]

theorem createPullRequest_calls {σ : Type} (c : GithubClient σ) (args : GoMap) (w : σ)
    (owner repo title head base : String)
    (h0 : getString args "owner" = some owner)
    (h1 : getString args "repo" = some repo)
    (h2 : getString args "title" = some title)
    (h3 : getString args "head" = some head)
    (h4 : getString args "base" = some base) :
    (createPullRequest c args w).calls = [RemoteCall.pullRequestsCreate owner repo ⟨some title, some head, some base, getString args "body"⟩] := by
  unfold createPullRequest
  simp only [h0, h1, h2, h3, h4]

theorem createPullRequest_one_call {σ : Type} (c : GithubClient σ) (args : GoMap) (w : σ)
    (h : firstMissing args ["owner", "repo", "title", "head", "base"] = none) :
    (createPullRequest c args w).calls.length = 1 := by
  obtain ⟨owner, h0⟩ := firstMissing_eq_none args _ h "owner" (by simp)
  obtain ⟨repo, h1⟩ := firstMissing_eq_none args _ h "repo" (by simp)
  obtain ⟨title, h2⟩ := firstMissing_eq_none args _ h "title" (by simp)
  obtain ⟨head, h3⟩ := firstMissing_eq_none args _ h "head" (by simp)
  obtain ⟨base, h4⟩ := firstMissing_eq_none args _ h "base" (by simp)
  rw [createPullRequest_calls c args w owner repo title head base h0 h1 h2 h3 h4]
  rfl

theorem listIssues_fail {σ : Type} (c : GithubClient σ) (args : GoMap) (w : σ) (k : String)
    (h : firstMissing args ["owner", "repo"] = some k) :
    listIssues c args w = failWith w (fieldLabel k ++ " required") := by
  unfold firstMissing at h
  unfold listIssues
  cases h0 : getString args "owner" <;> simp [h0] at h ⊢
  · subst h; simp [fieldLabel]
  cases h1 : getString args "repo" <;> simp [h1] at h ⊢
  · subst h; simp [fieldLabel]

theorem listIssues_calls {σ : Type} (c : GithubClient σ) (args : GoMap) (w : σ)
    (owner repo : String)
    (h0 : getString args "owner" = some owner)
    (h1 : getString args "repo" = some repo) :
    (listIssues c args w).calls = [RemoteCall.issuesListByRepo owner repo ⟨(getString args "state").getD "open"⟩] := by
  unfold listIssues
  simp only [h0, h1]
  cases getString args "state" <;> rfl

theorem listIssues_one_call {σ : Type} (c : GithubClient σ) (args : GoMap) (w : σ)
    (h : firstMissing args ["owner", "repo"] = none) :
    (listIssues c args w).calls.length = 1 := by
  obtain ⟨owner, h0⟩ := firstMissing_eq_none args _ h "owner" (by simp)
  obtain ⟨repo, h1⟩ := firstMissing_eq_none args _ h "repo" (by simp)
  rw [listIssues_calls c args w owner repo h0 h1]
  rfl

theorem createIssue_fail {σ : Type} (c : GithubClient σ) (args : GoMap) (w : σ) (k : String)
    (h : firstMissing args ["owner", "repo", "title"] = some k) :
    createIssue c args w = failWith w (fieldLabel k ++ " required") := by
  unfold firstMissing at h
  unfold createIssue
  cases h0 : getString args "owner" <;> simp [h0] at h ⊢
  · subst h; simp [fieldLabel]
  cases h1 : getString args "repo" <;> simp [h1] at h ⊢
  · subst h; simp [fieldLabel]
  cases h2 : getString args "title" <;> simp [h2] at h ⊢
  · subst h; simp [fieldLabel]

theorem createIssue_calls {σ : Type} (c : GithubClient σ) (args : GoMap) (w : σ)
    (owner repo title : String)
    (h0 : getString args "owner" = some owner)
    (h1 : getString args "repo" = some repo)
    (h2 : getString args "title" = some title) :
    (createIssue c args w).calls = [RemoteCall.issuesCreate owner repo ⟨some title, getString args "body"⟩] := by
  unfold createIssue
  simp only [h0, h1, h2]

theorem createIssue_one_call {σ : Type} (c : GithubClient σ) (args : GoMap) (w : σ)
    (h : firstMissing args ["owner", "repo", "title"] = none) :
    (createIssue c args w).calls.length = 1 := by
  obtain ⟨owner, h0⟩ := firstMissing_eq_none args _ h "owner" (by simp)
  obtain ⟨repo, h1⟩ := firstMissing_eq_none args _ h "repo" (by simp)
  obtain ⟨title, h2⟩ := firstMissing_eq_none args _ h "title" (by simp)
  rw [createIssue_calls c args w owner repo title h0 h1 h2]
  rfl

theorem createFile_fail {σ : Type} (c : GithubClient σ) (args : GoMap) (w : σ) (k : String)
    (h : firstMissing args ["owner", "repo", "path", "content", "message"] = some k) :
    createFile c args w = failWith w (fieldLabel k ++ " required") := by
  unfold firstMissing at h
  unfold createFile
  cases h0 : getString args "owner" <;> simp [h0] at h ⊢
  · subst h; simp [fieldLabel]
  cases h1 : getString args "repo" <;> simp [h1] at h ⊢
  · subst h; simp [fieldLabel]
  cases h2 : getString args "path" <;> simp [h2] at h ⊢
  · subst h; simp [fieldLabel]
  cases h3 : getString args "content" <;> simp [h3] at h ⊢
  · subst h; simp [fieldLabel]
  cases h4 : getString args "message" <;> simp [h4] at h ⊢
  · subst h; simp [fieldLabel]

theorem createFile_calls {σ : Type} (c : GithubClient σ) (args : GoMap) (w : σ)
    (owner repo path content message : String)
    (h0 : getString args "owner" = some owner)
    (h1 : getString args "repo" = some repo)
    (h2 : getString args "path" = some path)
    (h3 : getString args "content" = some content)
    (h4 : getString args "message" = some message) :
    (createFile c args w).calls = [RemoteCall.repositoriesCreateFile owner repo path
      ⟨some message, content, none, some ((getString args "branch").getD "main")⟩] := by
  unfold createFile
  simp only [h0, h1, h2, h3, h4]
  cases getString args "branch" <;> rfl

theorem createFile_one_call {σ : Type} (c : GithubClient σ) (args : GoMap) (w : σ)
    (h : firstMissing args ["owner", "repo", "path", "content", "message"] = none) :
    (createFile c args w).calls.length = 1 := by
  obtain ⟨owner, h0⟩ := firstMissing_eq_none args _ h "owner" (by simp)
  obtain ⟨repo, h1⟩ := firstMissing_eq_none args _ h "repo" (by simp)
  obtain ⟨path, h2⟩ := firstMissing_eq_none args _ h "path" (by simp)
  obtain ⟨content, h3⟩ := firstMissing_eq_none args _ h "content" (by simp)
  obtain ⟨message, h4⟩ := firstMissing_eq_none args _ h "message" (by simp)
  rw [createFile_calls c args w owner repo path content message h0 h1 h2 h3 h4]
  rfl

theorem updateFile_fail {σ : Type} (c : GithubClient σ) (args : GoMap) (w : σ) (k : String)
    (h : firstMissing args ["owner", "repo", "path", "content", "message", "sha"] = some k) :
    updateFile c args w = failWith w (fieldLabel k ++ " required") := by
  unfold firstMissing at h
  unfold updateFile
  cases h0 : getString args "owner" <;> simp [h0] at h ⊢
  · subst h; simp [fieldLabel]
  cases h1 : getString args "repo" <;> simp [h1] at h ⊢
  · subst h; simp [fieldLabel]
  cases h2 : getString args "path" <;> simp [h2] at h ⊢
  · subst h; simp [fieldLabel]
  cases h3 : getString args "content" <;> simp [h3] at h ⊢
  · subst h; simp [fieldLabel]
  cases h4 : getString args "message" <;> simp [h4] at h ⊢
  · subst h; simp [fieldLabel]
  cases h5 : getString args "sha" <;> simp [h5] at h ⊢
  · subst h; simp [fieldLabel]

theorem updateFile_calls {σ : Type} (c : GithubClient σ) (args : GoMap) (w : σ)
    (owner repo path content message sha : String)
    (h0 : getString args "owner" = some owner)
    (h1 : getString args "repo" = some repo)
    (h2 : getString args "path" = some path)
    (h3 : getString args "content" = some content)
    (h4 : getString args "message" = some message)
    (h5 : getString args "sha" = some sha) :
    (updateFile c args w).calls = [RemoteCall.repositoriesUpdateFile owner repo path
      ⟨some message, content, some sha, some ((getString args "branch").getD "main")⟩] := by
  unfold updateFile
  simp only [h0, h1, h2, h3, h4, h5]
  cases getString args "branch" <;> rfl

theorem updateFile_one_call {σ : Type} (c : GithubClient σ) (args : GoMap) (w : σ)
    (h : firstMissing args ["owner", "repo", "path", "content", "message", "sha"] = none) :
    (updateFile c args w).calls.length = 1 := by
  obtain ⟨owner, h0⟩ := firstMissing_eq_none args _ h "owner" (by simp)
  obtain ⟨repo, h1⟩ := firstMissing_eq_none args _ h "repo" (by simp)
  obtain ⟨path, h2⟩ := firstMissing_eq_none args _ h "path" (by simp)
  obtain ⟨content, h3⟩ := firstMissing_eq_none args _ h "content" (by simp)
  obtain ⟨message, h4⟩ := firstMissing_eq_none args _ h "message" (by simp)
  obtain ⟨sha, h5⟩ := firstMissing_eq_none args _ h "sha" (by simp)
  rw [updateFile_calls c args w owner repo path content message sha h0 h1 h2 h3 h4 h5]
  rfl

theorem getFile_fail {σ : Type} (c : GithubClient σ) (args : GoMap) (w : σ) (k : String)
    (h : firstMissing args ["owner", "repo", "path"] = some k) :
    getFile c args w = failWith w (fieldLabel k ++ " required") := by
  unfold firstMissing at h
  unfold getFile
  cases h0 : getString args "owner" <;> simp [h0] at h ⊢
  · subst h; simp [fieldLabel]
  cases h1 : getString args "repo" <;> simp [h1] at h ⊢
  · subst h; simp [fieldLabel]
  cases h2 : getString args "path" <;> simp [h2] at h ⊢
  · subst h; simp [fieldLabel]

theorem getFile_calls {σ : Type} (c : GithubClient σ) (args : GoMap) (w : σ)
    (owner repo path : String)
    (h0 : getString args "owner" = some owner)
    (h1 : getString args "repo" = some repo)
    (h2 : getString args "path" = some path) :
    (getFile c args w).calls = [RemoteCall.repositoriesGetContents owner repo path
      ⟨(getString args "branch").getD "main"⟩] := by
  unfold getFile
  simp only [h0, h1, h2]
  cases getString args "branch" <;> rfl

theorem getFile_one_call {σ : Type} (c : GithubClient σ) (args : GoMap) (w : σ)
    (h : firstMissing args ["owner", "repo", "path"] = none) :
    (getFile c args w).calls.length = 1 := by
  obtain ⟨owner, h0⟩ := firstMissing_eq_none args _ h "owner" (by simp)
  obtain ⟨repo, h1⟩ := firstMissing_eq_none args _ h "repo" (by simp)
  obtain ⟨path, h2⟩ := firstMissing_eq_none args _ h "path" (by simp)
  rw [getFile_calls c args w owner repo path h0 h1 h2]
  rfl

theorem listFiles_fail {σ : Type} (c : GithubClient σ) (args : GoMap) (w : σ) (k : String)
    (h : firstMissing args ["owner", "repo"] = some k) :
    listFiles c args w = failWith w (fieldLabel k ++ " required") := by
  unfold firstMissing at h
  unfold listFiles
  cases h0 : getString args "owner" <;> simp [h0] at h ⊢
  · subst h; simp [fieldLabel]
  cases h1 : getString args "repo" <;> simp [h1] at h ⊢
  · subst h; simp [fieldLabel]

theorem listFiles_calls {σ : Type} (c : GithubClient σ) (args : GoMap) (w : σ)
    (owner repo : String)
    (h0 : getString args "owner" = some owner)
    (h1 : getString args "repo" = some repo) :
    (listFiles c args w).calls = [RemoteCall.repositoriesGetContents owner repo ((getString args "path").getD "")
      ⟨(getString args "branch").getD "main"⟩] := by
  unfold listFiles
  simp only [h0, h1]
  cases getString args "path" <;> cases getString args "branch" <;> rfl

theorem listFiles_one_call {σ : Type} (c : GithubClient σ) (args : GoMap) (w : σ)
    (h : firstMissing args ["owner", "repo"] = none) :
    (listFiles c args w).calls.length = 1 := by
  obtain ⟨owner, h0⟩ := firstMissing_eq_none args _ h "owner" (by simp)
  obtain ⟨repo, h1⟩ := firstMissing_eq_none args _ h "repo" (by simp)
  rw [listFiles_calls c args w owner repo h0 h1]
  rfl

/-- Each tool of the table is routed to an adapter that fails, before any
remote call, with the label of the first missing argument, and otherwise issues
one remote call. -/
theorem selectAdapter_spec {σ : Type} (c : GithubClient σ) (w : σ) (name : String)
    (required : List String) (hmem : (name, required) ∈ specRequired) (args : GoMap) :
    ∃ adapter, selectAdapter c name = some adapter ∧
      (∀ k, firstMissing args required = some k →
        adapter args w = failWith w (fieldLabel k ++ " required")) ∧
      (firstMissing args required = none → (adapter args w).calls.length = 1) := by
  simp only [specRequired, List.mem_cons, Prod.mk.injEq, List.mem_singleton,
    List.not_mem_nil, or_false] at hmem
  rcases hmem with ⟨rfl, rfl⟩ | ⟨rfl, rfl⟩ | ⟨rfl, rfl⟩ | ⟨rfl, rfl⟩ | ⟨rfl, rfl⟩ | ⟨rfl, rfl⟩ | ⟨rfl, rfl⟩ | ⟨rfl, rfl⟩ | ⟨rfl, rfl⟩ | ⟨rfl, rfl⟩ | ⟨rfl, rfl⟩ | ⟨rfl, rfl⟩
  · exact ⟨listRepositories c, by simp [selectAdapter], fun k hk => by simp [firstMissing] at hk,
      listRepositories_one_call c args w⟩
  · exact ⟨createRepository c, by simp [selectAdapter], createRepository_fail c args w,
      createRepository_one_call c args w⟩
  · exact ⟨getRepository c, by simp [selectAdapter], getRepository_fail c args w,
      getRepository_one_call c args w⟩
  · exact ⟨listBranches c, by simp [selectAdapter], listBranches_fail c args w,
      listBranches_one_call c args w⟩
  · exact ⟨listPullRequests c, by simp [selectAdapter], listPullRequests_fail c args w,
      listPullRequests_one_call c args w⟩
  · exact ⟨createPullRequest c, by simp [selectAdapter], createPullRequest_fail c args w,
      createPullRequest_one_call c args w⟩
  · exact ⟨listIssues c, by simp [selectAdapter], listIssues_fail c args w,
      listIssues_one_call c args w⟩
  · exact ⟨createIssue c, by simp [selectAdapter], createIssue_fail c args w,
      createIssue_one_call c args w⟩
  · exact ⟨createFile c, by simp [selectAdapter], createFile_fail c args w,
      createFile_one_call c args w⟩
  · exact ⟨updateFile c, by simp [selectAdapter], updateFile_fail c args w,
      updateFile_one_call c args w⟩
  · exact ⟨getFile c, by simp [selectAdapter], getFile_fail c args w,
      getFile_one_call c args w⟩
  · exact ⟨listFiles c, by simp [selectAdapter], listFiles_fail c args w,
      listFiles_one_call c args w⟩

/-! ## Each adapter performs exactly the call it logs -/

theorem listRepositories_sends {σ : Type} (c : GithubClient σ) (args : GoMap) (w : σ) :
    SendsExactly listRepositories c args w (RemoteCall.repositoriesList "" ⟨(getString args "type").getD "all"⟩) := by
  unfold SendsExactly listRepositories
  cases getString args "type" <;>
  · refine ⟨rfl, rfl, ?_, ?_⟩
    · intro e he
      simp only [Option.getD, GithubClient.perform, RemoteAnswer.failure] at he
      unfold errorOf at he
      split at he
      · rename_i hx
        simp only [Option.some.injEq] at he
        subst he
        simp only [hx]
      · cases he
    · intro c2 w2 _ heq
      simp only [Option.getD, GithubClient.perform, RemoteAnswer.repositories.injEq] at heq
      simp only [heq]

theorem createRepository_sends {σ : Type} (c : GithubClient σ) (args : GoMap) (w : σ)
    (name : String)
    (h0 : getString args "name" = some name) :
    SendsExactly createRepository c args w (RemoteCall.repositoriesCreate ""
      ⟨some name, getString args "description", getBool args "private"⟩) := by
  unfold SendsExactly createRepository
  simp only [h0]
  · refine ⟨trivial, rfl, ?_, ?_⟩
    · intro e he
      simp only [Option.getD, GithubClient.perform, RemoteAnswer.failure] at he
      unfold errorOf at he
      split at he
      · rename_i hx
        simp only [Option.some.injEq] at he
        subst he
        simp only [hx]
      · cases he
    · intro c2 w2 _ heq
      simp only [Option.getD, GithubClient.perform, RemoteAnswer.repository.injEq] at heq
      simp only [heq]

theorem getRepository_sends {σ : Type} (c : GithubClient σ) (args : GoMap) (w : σ)
    (owner repo : String)
    (h0 : getString args "owner" = some owner)
    (h1 : getString args "repo" = some repo) :
    SendsExactly getRepository c args w (RemoteCall.repositoriesGet owner repo) := by
  unfold SendsExactly getRepository
  simp only [h0, h1]
  · refine ⟨trivial, rfl, ?_, ?_⟩
    · intro e he
      simp only [Option.getD, GithubClient.perform, RemoteAnswer.failure] at he
      unfold errorOf at he
      split at he
      · rename_i hx
        simp only [Option.some.injEq] at he
        subst he
        simp only [hx]
      · cases he
    · intro c2 w2 _ heq
      simp only [Option.getD, GithubClient.perform, RemoteAnswer.repository.injEq] at heq
      simp only [heq]

theorem listBranches_sends {σ : Type} (c : GithubClient σ) (args : GoMap) (w : σ)
    (owner repo : String)
    (h0 : getString args "owner" = some owner)
    (h1 : getString args "repo" = some repo) :
    SendsExactly listBranches c args w (RemoteCall.repositoriesListBranches owner repo) := by
  unfold SendsExactly listBranches
  simp only [h0, h1]
  · refine ⟨trivial, rfl, ?_, ?_⟩
    · intro e he
      simp only [Option.getD, GithubClient.perform, RemoteAnswer.failure] at he
      unfold errorOf at he
      split at he
      · rename_i hx
        simp only [Option.some.injEq] at he
        subst he
        simp only [hx]
      · cases he
    · intro c2 w2 _ heq
      simp only [Option.getD, GithubClient.perform, RemoteAnswer.branches.injEq] at heq
      simp only [heq]

theorem listPullRequests_sends {σ : Type} (c : GithubClient σ) (args : GoMap) (w : σ)
    (owner repo : String)
    (h0 : getString args "owner" = some owner)
    (h1 : getString args "repo" = some repo) :
    SendsExactly listPullRequests c args w (RemoteCall.pullRequestsList owner repo
      ⟨(getString args "state").getD "open"⟩) := by
  unfold SendsExactly listPullRequests
  simp only [h0, h1]
  cases getString args "state" <;>
  · refine ⟨rfl, rfl, ?_, ?_⟩
    · intro e he
      simp only [Option.getD, GithubClient.perform, RemoteAnswer.failure] at he
      unfold errorOf at he
      split at he
      · rename_i hx
        simp only [Option.some.injEq] at he
        subst he
        simp only [hx]
      · cases he
    · intro c2 w2 _ heq
      simp only [Option.getD, GithubClient.perform, RemoteAnswer.pullRequests.injEq] at heq
      simp only [heq]

theorem createPullRequest_sends {σ : Type} (c : GithubClient σ) (args : GoMap) (w : σ)
    (owner repo title head base : String)
    (h0 : getString args "owner" = some owner)
    (h1 : getString args "repo" = some repo)
    (h2 : getString args "title" = some title)
    (h3 : getString args "head" = some head)
    (h4 : getString args "base" = some base) :
    SendsExactly createPullRequest c args w (RemoteCall.pullRequestsCreate owner repo
      ⟨some title, some head, some base, getString args "body"⟩) := by
  unfold SendsExactly createPullRequest
  simp only [h0, h1, h2, h3, h4]
  · refine ⟨trivial, rfl, ?_, ?_⟩
    · intro e he
      simp only [Option.getD, GithubClient.perform, RemoteAnswer.failure] at he
      unfold errorOf at he
      split at he
      · rename_i hx
        simp only [Option.some.injEq] at he
        subst he
        simp only [hx]
      · cases he
    · intro c2 w2 _ heq
      simp only [Option.getD, GithubClient.perform, RemoteAnswer.pullRequest.injEq] at heq
      simp only [heq]

theorem listIssues_sends {σ : Type} (c : GithubClient σ) (args : GoMap) (w : σ)
    (owner repo : String)
    (h0 : getString args "owner" = some owner)
    (h1 : getString args "repo" = some repo) :
    SendsExactly listIssues c args w (RemoteCall.issuesListByRepo owner repo
      ⟨(getString args "state").getD "open"⟩) := by
  unfold SendsExactly listIssues
  simp only [h0, h1]
  cases getString args "state" <;>
  · refine ⟨rfl, rfl, ?_, ?_⟩
    · intro e he
      simp only [Option.getD, GithubClient.perform, RemoteAnswer.failure] at he
      unfold errorOf at he
      split at he
      · rename_i hx
        simp only [Option.some.injEq] at he
        subst he
        simp only [hx]
      · cases he
    · intro c2 w2 _ heq
      simp only [Option.getD, GithubClient.perform, RemoteAnswer.issues.injEq] at heq
      simp only [heq]

theorem createIssue_sends {σ : Type} (c : GithubClient σ) (args : GoMap) (w : σ)
    (owner repo title : String)
    (h0 : getString args "owner" = some owner)
    (h1 : getString args "repo" = some repo)
    (h2 : getString args "title" = some title) :
    SendsExactly createIssue c args w (RemoteCall.issuesCreate owner repo ⟨some title, getString args "body"⟩) := by
  unfold SendsExactly createIssue
  simp only [h0, h1, h2]
  · refine ⟨trivial, rfl, ?_, ?_⟩
    · intro e he
      simp only [Option.getD, GithubClient.perform, RemoteAnswer.failure] at he
      unfold errorOf at he
      split at he
      · rename_i hx
        simp only [Option.some.injEq] at he
        subst he
        simp only [hx]
      · cases he
    · intro c2 w2 _ heq
      simp only [Option.getD, GithubClient.perform, RemoteAnswer.issue.injEq] at heq
      simp only [heq]

theorem createFile_sends {σ : Type} (c : GithubClient σ) (args : GoMap) (w : σ)
    (owner repo path content message : String)
    (h0 : getString args "owner" = some owner)
    (h1 : getString args "repo" = some repo)
    (h2 : getString args "path" = some path)
    (h3 : getString args "content" = some content)
    (h4 : getString args "message" = some message) :
    SendsExactly createFile c args w (RemoteCall.repositoriesCreateFile owner repo path
      ⟨some message, content, none, some ((getString args "branch").getD "main")⟩) := by
  unfold SendsExactly createFile
  simp only [h0, h1, h2, h3, h4]
  cases getString args "branch" <;>
  · refine ⟨rfl, rfl, ?_, ?_⟩
    · intro e he
      simp only [Option.getD, GithubClient.perform, RemoteAnswer.failure] at he
      unfold errorOf at he
      split at he
      · rename_i hx
        simp only [Option.some.injEq] at he
        subst he
        simp only [hx]
      · cases he
    · intro c2 w2 _ heq
      simp only [Option.getD, GithubClient.perform, RemoteAnswer.contentResponse.injEq] at heq
      simp only [heq]

theorem updateFile_sends {σ : Type} (c : GithubClient σ) (args : GoMap) (w : σ)
    (owner repo path content message sha : String)
    (h0 : getString args "owner" = some owner)
    (h1 : getString args "repo" = some repo)
    (h2 : getString args "path" = some path)
    (h3 : getString args "content" = some content)
    (h4 : getString args "message" = some message)
    (h5 : getString args "sha" = some sha) :
    SendsExactly updateFile c args w (RemoteCall.repositoriesUpdateFile owner repo path
      ⟨some message, content, some sha, some ((getString args "branch").getD "main")⟩) := by
  unfold SendsExactly updateFile
  simp only [h0, h1, h2, h3, h4, h5]
  cases getString args "branch" <;>
  · refine ⟨rfl, rfl, ?_, ?_⟩
    · intro e he
      simp only [Option.getD, GithubClient.perform, RemoteAnswer.failure] at he
      unfold errorOf at he
      split at he
      · rename_i hx
        simp only [Option.some.injEq] at he
        subst he
        simp only [hx]
      · cases he
    · intro c2 w2 _ heq
      simp only [Option.getD, GithubClient.perform, RemoteAnswer.contentResponse.injEq] at heq
      simp only [heq]

theorem getFile_sends {σ : Type} (c : GithubClient σ) (args : GoMap) (w : σ)
    (owner repo path : String)
    (h0 : getString args "owner" = some owner)
    (h1 : getString args "repo" = some repo)
    (h2 : getString args "path" = some path) :
    SendsExactly getFile c args w (RemoteCall.repositoriesGetContents owner repo path
      ⟨(getString args "branch").getD "main"⟩) := by
  unfold SendsExactly getFile
  simp only [h0, h1, h2]
  cases getString args "branch" <;>
  · refine ⟨rfl, rfl, ?_, ?_⟩
    · intro e he
      simp only [Option.getD, GithubClient.perform, RemoteAnswer.failure] at he
      unfold errorOf at he
      split at he
      · rename_i hx
        simp only [Option.some.injEq] at he
        subst he
        simp only [hx]
      · cases he
    · intro c2 w2 hd heq
      simp only [Option.getD, GithubClient.perform, RemoteAnswer.contents.injEq] at heq
      simp only [heq, hd]

theorem listFiles_sends {σ : Type} (c : GithubClient σ) (args : GoMap) (w : σ)
    (owner repo : String)
    (h0 : getString args "owner" = some owner)
    (h1 : getString args "repo" = some repo) :
    SendsExactly listFiles c args w (RemoteCall.repositoriesGetContents owner repo ((getString args "path").getD "")
      ⟨(getString args "branch").getD "main"⟩) := by
  unfold SendsExactly listFiles
  simp only [h0, h1]
  cases getString args "path" <;> cases getString args "branch" <;>
  · refine ⟨rfl, rfl, ?_, ?_⟩
    · intro e he
      simp only [Option.getD, GithubClient.perform, RemoteAnswer.failure] at he
      unfold errorOf at he
      split at he
      · rename_i hx
        simp only [Option.some.injEq] at he
        subst he
        simp only [hx]
      · cases he
    · intro c2 w2 _ heq
      simp only [Option.getD, GithubClient.perform, RemoteAnswer.contents.injEq] at heq
      simp only [heq]

/-- Each tool of the table is routed, whatever the client, to one adapter; when
no required argument is missing, that adapter performs exactly one remote
call, which depends on the arguments alone. -/
theorem selectAdapter_sends {σ : Type} (name : String) (required : List String)
    (hmem : (name, required) ∈ specRequired) (args : GoMap)
    (hnone : firstMissing args required = none) :
    ∃ (A : GithubClient σ → GoMap → σ → AdapterRun σ) (call : RemoteCall),
      (∀ c : GithubClient σ, selectAdapter c name = some (A c)) ∧
      ∀ (c : GithubClient σ) (w : σ), SendsExactly A c args w call := by
  simp only [specRequired, List.mem_cons, Prod.mk.injEq, List.mem_singleton,
    List.not_mem_nil, or_false] at hmem
  rcases hmem with ⟨rfl, rfl⟩ | ⟨rfl, rfl⟩ | ⟨rfl, rfl⟩ | ⟨rfl, rfl⟩ | ⟨rfl, rfl⟩ | ⟨rfl, rfl⟩ | ⟨rfl, rfl⟩ | ⟨rfl, rfl⟩ | ⟨rfl, rfl⟩ | ⟨rfl, rfl⟩ | ⟨rfl, rfl⟩ | ⟨rfl, rfl⟩
  ·
    exact ⟨listRepositories, _, fun c => by simp [selectAdapter],
      fun c w => listRepositories_sends c args w ⟩
  ·
    obtain ⟨name, h0⟩ := firstMissing_eq_none args _ hnone "name" (by simp)
    exact ⟨createRepository, _, fun c => by simp [selectAdapter],
      fun c w => createRepository_sends c args w name h0⟩
  ·
    obtain ⟨owner, h0⟩ := firstMissing_eq_none args _ hnone "owner" (by simp)
    obtain ⟨repo, h1⟩ := firstMissing_eq_none args _ hnone "repo" (by simp)
    exact ⟨getRepository, _, fun c => by simp [selectAdapter],
      fun c w => getRepository_sends c args w owner repo h0 h1⟩
  ·
    obtain ⟨owner, h0⟩ := firstMissing_eq_none args _ hnone "owner" (by simp)
    obtain ⟨repo, h1⟩ := firstMissing_eq_none args _ hnone "repo" (by simp)
    exact ⟨listBranches, _, fun c => by simp [selectAdapter],
      fun c w => listBranches_sends c args w owner repo h0 h1⟩
  ·
    obtain ⟨owner, h0⟩ := firstMissing_eq_none args _ hnone "owner" (by simp)
    obtain ⟨repo, h1⟩ := firstMissing_eq_none args _ hnone "repo" (by simp)
    exact ⟨listPullRequests, _, fun c => by simp [selectAdapter],
      fun c w => listPullRequests_sends c args w owner repo h0 h1⟩
  ·
    obtain ⟨owner, h0⟩ := firstMissing_eq_none args _ hnone "owner" (by simp)
    obtain ⟨repo, h1⟩ := firstMissing_eq_none args _ hnone "repo" (by simp)
    obtain ⟨title, h2⟩ := firstMissing_eq_none args _ hnone "title" (by simp)
    obtain ⟨head, h3⟩ := firstMissing_eq_none args _ hnone "head" (by simp)
    obtain ⟨base, h4⟩ := firstMissing_eq_none args _ hnone "base" (by simp)
    exact ⟨createPullRequest, _, fun c => by simp [selectAdapter],
      fun c w => createPullRequest_sends c args w owner repo title head base h0 h1 h2 h3 h4⟩
  ·
    obtain ⟨owner, h0⟩ := firstMissing_eq_none args _ hnone "owner" (by simp)
    obtain ⟨repo, h1⟩ := firstMissing_eq_none args _ hnone "repo" (by simp)
    exact ⟨listIssues, _, fun c => by simp [selectAdapter],
      fun c w => listIssues_sends c args w owner repo h0 h1⟩
  ·
    obtain ⟨owner, h0⟩ := firstMissing_eq_none args _ hnone "owner" (by simp)
    obtain ⟨repo, h1⟩ := firstMissing_eq_none args _ hnone "repo" (by simp)
    obtain ⟨title, h2⟩ := firstMissing_eq_none args _ hnone "title" (by simp)
    exact ⟨createIssue, _, fun c => by simp [selectAdapter],
      fun c w => createIssue_sends c args w owner repo title h0 h1 h2⟩
  ·
    obtain ⟨owner, h0⟩ := firstMissing_eq_none args _ hnone "owner" (by simp)
    obtain ⟨repo, h1⟩ := firstMissing_eq_none args _ hnone "repo" (by simp)
    obtain ⟨path, h2⟩ := firstMissing_eq_none args _ hnone "path" (by simp)
    obtain ⟨content, h3⟩ := firstMissing_eq_none args _ hnone "content" (by simp)
    obtain ⟨message, h4⟩ := firstMissing_eq_none args _ hnone "message" (by simp)
    exact ⟨createFile, _, fun c => by simp [selectAdapter],
      fun c w => createFile_sends c args w owner repo path content message h0 h1 h2 h3 h4⟩
  ·
    obtain ⟨owner, h0⟩ := firstMissing_eq_none args _ hnone "owner" (by simp)
    obtain ⟨repo, h1⟩ := firstMissing_eq_none args _ hnone "repo" (by simp)
    obtain ⟨path, h2⟩ := firstMissing_eq_none args _ hnone "path" (by simp)
    obtain ⟨content, h3⟩ := firstMissing_eq_none args _ hnone "content" (by simp)
    obtain ⟨message, h4⟩ := firstMissing_eq_none args _ hnone "message" (by simp)
    obtain ⟨sha, h5⟩ := firstMissing_eq_none args _ hnone "sha" (by simp)
    exact ⟨updateFile, _, fun c => by simp [selectAdapter],
      fun c w => updateFile_sends c args w owner repo path content message sha h0 h1 h2 h3 h4 h5⟩
  ·
    obtain ⟨owner, h0⟩ := firstMissing_eq_none args _ hnone "owner" (by simp)
    obtain ⟨repo, h1⟩ := firstMissing_eq_none args _ hnone "repo" (by simp)
    obtain ⟨path, h2⟩ := firstMissing_eq_none args _ hnone "path" (by simp)
    exact ⟨getFile, _, fun c => by simp [selectAdapter],
      fun c w => getFile_sends c args w owner repo path h0 h1 h2⟩
  ·
    obtain ⟨owner, h0⟩ := firstMissing_eq_none args _ hnone "owner" (by simp)
    obtain ⟨repo, h1⟩ := firstMissing_eq_none args _ hnone "repo" (by simp)
    exact ⟨listFiles, _, fun c => by simp [selectAdapter],
      fun c w => listFiles_sends c args w owner repo h0 h1⟩

/-- C5: for each of the twelve tools of the required-argument table and every
arguments mapping, if some required argument is absent or not a string the
adapter fails without any remote call (the remote state is untouched), and if
every required argument is a string (possibly empty) it issues exactly one
remote call: its log holds one call, the remote state afterwards is the state
the collaborator leaves after that one invocation, and the outcome is the
collaborator's error or depends on its answer to that invocation alone
(`SendsExactly`). -/
theorem adapters_validate_then_call_once {σ : Type} (c : GithubClient σ) (w : σ)
    (name : String) (required : List String) (hmem : (name, required) ∈ specRequired)
    (args : GoMap) :
    ∃ adapter, selectAdapter c name = some adapter ∧
      ((∃ k ∈ required, getString args k = none) →
        (adapter args w).calls = [] ∧ (adapter args w).world = w ∧
        ∃ msg, (adapter args w).out = GoOut.returned (Except.error msg)) ∧
      ((∀ k ∈ required, ∃ s, getString args k = some s) →
        (adapter args w).calls.length = 1 ∧
        ∃ (A : GithubClient σ → GoMap → σ → AdapterRun σ) (call : RemoteCall),
          adapter = A c ∧ (∀ c2 : GithubClient σ, selectAdapter c2 name = some (A c2)) ∧
          ∀ (c2 : GithubClient σ) (w2 : σ), SendsExactly A c2 args w2 call) := by
  obtain ⟨adapter, hsel, hfail, hcall⟩ := selectAdapter_spec c w name required hmem args
  refine ⟨adapter, hsel, ?_, ?_⟩
  · rintro ⟨k, hk, hnone⟩
    obtain ⟨k', hk'⟩ := firstMissing_of_missing args required k hk hnone
    rw [hfail k' hk']
    exact ⟨rfl, rfl, _, rfl⟩
  · intro hall
    have hnone : firstMissing args required = none := by
      cases hf : firstMissing args required with
      | none => rfl
      | some k =>
        obtain ⟨hk, hmiss⟩ := firstMissing_mem args required k hf
        obtain ⟨s, hs⟩ := hall k hk
        rw [hmiss] at hs
        cases hs
    refine ⟨hcall hnone, ?_⟩
    obtain ⟨A, call, hroute, hsends⟩ := selectAdapter_sends name required hmem args hnone
    refine ⟨A, call, ?_, hroute, hsends⟩
    have h := hroute c
    rw [hsel] at h
    exact Option.some.inj h

/-- Witness of C5: `github_create_pr` whose `head` is a number makes no remote
call, and `github_get_repo` on o/r makes one, after which the stub has counted
one invocation. -/
theorem adapters_validate_then_call_once_witness :
    (∃ adapter, selectAdapter stubClient "github_create_pr" = some adapter ∧
      (adapter [("owner", GoVal.str "o"), ("repo", GoVal.str ""), ("title", GoVal.str "t"),
        ("head", GoVal.float64 0), ("base", GoVal.str "main")] 0).calls = []) ∧
    (∃ adapter, selectAdapter stubClient "github_get_repo" = some adapter ∧
      (adapter ownerRepoArgs 0).calls.length = 1) := by
  obtain ⟨adapter, hsel, hfail, -⟩ := adapters_validate_then_call_once stubClient 0
    "github_create_pr" ["owner", "repo", "title", "head", "base"] (by decide)
    [("owner", GoVal.str "o"), ("repo", GoVal.str ""), ("title", GoVal.str "t"),
      ("head", GoVal.float64 0), ("base", GoVal.str "main")]
  obtain ⟨adapter2, hsel2, -, hcall2⟩ := adapters_validate_then_call_once stubClient 0
    "github_get_repo" ["owner", "repo"] (by decide) ownerRepoArgs
  refine ⟨⟨adapter, hsel, (hfail ⟨"head", by decide, rfl⟩).1⟩, adapter2, hsel2, ?_⟩
  refine (hcall2 ?_).1
  intro k hk
  simp only [List.mem_cons, List.mem_singleton, List.not_mem_nil, or_false] at hk
  rcases hk with rfl | rfl
  · exact ⟨"o", rfl⟩
  · exact ⟨"r", rfl⟩

/-- C6 (the claim fails as stated): with no arguments, the first missing
argument of `github_create_repo` is `name`, and the failure message is not
"name required". -/
theorem createRepository_message_is_not_field_name :
    firstMissing [] ["name"] = some "name" ∧
    (createRepository stubClient [] 0).out
      ≠ GoOut.returned (Except.error ("name" ++ " required")) := by
  refine ⟨rfl, ?_⟩
  intro h
  simp [createRepository, getString, lookup, asString, failWith] at h

/-- C6 (amended): for each of the twelve tools and every arguments mapping in
which a required argument is absent or not a string, the adapter fails with the
message "<label> required", where <label> is the label (`fieldLabel`) of the
first such argument in the order of the table: the argument's name for owner
and title, a descriptive phrase for the others. -/
theorem adapters_first_missing_decides_message {σ : Type} (c : GithubClient σ) (w : σ)
    (name : String) (required : List String) (hmem : (name, required) ∈ specRequired)
    (args : GoMap) (hmiss : ∃ k ∈ required, getString args k = none) :
    ∃ adapter k, selectAdapter c name = some adapter ∧
      firstMissing args required = some k ∧
      (adapter args w).out = GoOut.returned (Except.error (fieldLabel k ++ " required")) := by
  obtain ⟨adapter, hsel, hfail, -⟩ := selectAdapter_spec c w name required hmem args
  obtain ⟨k, hk, hnone⟩ := hmiss
  obtain ⟨k', hk'⟩ := firstMissing_of_missing args required k hk hnone
  refine ⟨adapter, k', hsel, hk', ?_⟩
  rw [hfail k' hk']
  rfl

/-- Witness of C6: `github_update_file` without `content` and `sha` fails on
`content`. -/
theorem adapters_first_missing_decides_message_witness :
    ∃ adapter k, selectAdapter stubClient "github_update_file" = some adapter ∧
      firstMissing [("owner", GoVal.str "o"), ("repo", GoVal.str "r"),
        ("path", GoVal.str "p"), ("message", GoVal.str "m")]
        ["owner", "repo", "path", "content", "message", "sha"] = some k ∧
      (adapter [("owner", GoVal.str "o"), ("repo", GoVal.str "r"),
        ("path", GoVal.str "p"), ("message", GoVal.str "m")] 0).out
        = GoOut.returned (Except.error (fieldLabel k ++ " required")) :=
  adapters_first_missing_decides_message stubClient 0 "github_update_file"
    ["owner", "repo", "path", "content", "message", "sha"] (by decide)
    [("owner", GoVal.str "o"), ("repo", GoVal.str "r"),
      ("path", GoVal.str "p"), ("message", GoVal.str "m")] ⟨"sha", by decide, rfl⟩

theorem createRepository_no_name {σ : Type} (c : GithubClient σ) (args : GoMap) (w : σ)
    (h : getString args "name" = none) :
    createRepository c args w = failWith w "repository name required" := by
  simp [createRepository, h]

theorem handleRequest_of_callTool_failWith {σ : Type} (c : GithubClient σ)
    (req : JSONRPCRequest) (w : σ) (msg : String)
    (hv : req.jsonrpc = "2.0") (hm : req.method = "tools/call")
    (h : callTool c req.params w = failWith w msg) :
    RespondsError (handleRequest c req w) (-32603) msg ∧
    (handleRequest c req w).calls = [] ∧ (handleRequest c req w).world = w := by
  have hb := baseResponse_fields req
  refine ⟨⟨withError (baseResponse req) (-32603) msg, ?_, ?_⟩, ?_, ?_⟩
  · simp [handleRequest, hv, hm, h, failWith]
  · simp [IsError, withError, hb.2.1]
  · simp [handleRequest, hv, hm, h, failWith]
  · simp [handleRequest, hv, hm, h, failWith]

/-- C7: a `tools/call` of `github_create_repo` with version "2.0" whose
arguments carry no string `name` (absent, of another type, or no arguments
mapping at all) is answered by an error response with code -32603 and message
"repository name required", and no remote call is made. -/
theorem createRepo_without_name_fails {σ : Type} (c : GithubClient σ) (req : JSONRPCRequest)
    (w : σ) (hv : req.jsonrpc = "2.0") (hm : req.method = "tools/call")
    (hn : lookup req.params "name" = GoVal.str "github_create_repo")
    (ha : ∀ m, lookup req.params "arguments" = GoVal.map m →
      ∀ s, lookup m "name" ≠ GoVal.str s) :
    RespondsError (handleRequest c req w) (-32603) "repository name required" ∧
    (handleRequest c req w).calls = [] ∧ (handleRequest c req w).world = w := by
  apply handleRequest_of_callTool_failWith c req w _ hv hm
  have hname : getString req.params "name" = some "github_create_repo" := by
    simp [getString, hn, asString]
  have hsel : selectAdapter c "github_create_repo" = some (createRepository c) := by
    simp [selectAdapter]
  unfold callTool
  simp only [hname, hsel]
  cases hl : lookup req.params "arguments" with
  | map m =>
    have hnone : getString m "name" = none :=
      (getString_eq_none_iff m "name").2 (ha m hl)
    simp [asMap, createRepository_no_name c m w hnone, failWith, wrapText]
  | _ => simp [asMap, createRepository, getString, lookup, asString, failWith, wrapText]

/-- Witness of C7: the stub collaborator records zero invocations. -/
theorem createRepo_without_name_fails_witness :
    RespondsError (handleRequest stubClient
      (toolCallRequest "github_create_repo" [("description", GoVal.str "d")]) 0) (-32603)
      "repository name required" ∧
    (handleRequest stubClient
      (toolCallRequest "github_create_repo" [("description", GoVal.str "d")]) 0).calls = [] ∧
    (handleRequest stubClient
      (toolCallRequest "github_create_repo" [("description", GoVal.str "d")]) 0).world = 0 :=
  createRepo_without_name_fails stubClient
    (toolCallRequest "github_create_repo" [("description", GoVal.str "d")]) 0 rfl rfl rfl
    (by
      intro m hm s hs
      simp [toolCallRequest, lookup] at hm
      subst hm
      simp [lookup] at hs)

theorem catalogNames_eq :
    catalogNames = ["github_list_repos", "github_create_repo", "github_get_repo",
      "github_list_branches", "github_list_prs", "github_create_pr", "github_list_issues",
      "github_create_issue", "github_create_file", "github_update_file", "github_get_file",
      "github_list_files"] := rfl

theorem catalogNames_eq_table : catalogNames = specRequired.map Prod.fst := rfl

theorem selectAdapter_eq_none_iff {σ : Type} (c : GithubClient σ) (n : String) :
    selectAdapter c n = none ↔ n ∉ catalogNames := by
  constructor
  · intro h hmem
    rw [catalogNames_eq] at hmem
    simp only [List.mem_cons, List.mem_singleton, List.not_mem_nil, or_false] at hmem
    rcases hmem with rfl | rfl | rfl | rfl | rfl | rfl | rfl | rfl | rfl | rfl | rfl | rfl <;>
      simp [selectAdapter] at h
  · intro h
    rw [catalogNames_eq] at h
    simp only [List.mem_cons, List.mem_singleton, List.not_mem_nil, or_false, not_or] at h
    obtain ⟨h1, h2, h3, h4, h5, h6, h7, h8, h9, h10, h11, h12⟩ := h
    simp only [selectAdapter, if_neg h1, if_neg h2, if_neg h3, if_neg h4, if_neg h5, if_neg h6,
      if_neg h7, if_neg h8, if_neg h9, if_neg h10, if_neg h11, if_neg h12]

theorem label_ne_tool_not_found :
    ∀ e ∈ specRequired, ∀ k ∈ e.2, fieldLabel k ++ " required" ≠ "tool not found" := by
  decide

theorem callTool_not_found {σ : Type} (c : GithubClient σ) (params : GoMap) (w : σ)
    (n : String) (hn : lookup params "name" = GoVal.str n) (hmem : n ∉ catalogNames) :
    callTool c params w = failWith w "tool not found" := by
  have hname : getString params "name" = some n := by simp [getString, hn, asString]
  have hsel := (selectAdapter_eq_none_iff c n).2 hmem
  unfold callTool
  simp only [hname, hsel]

/-- C8: for a `tools/call` with a valid envelope whose params `name` is the
string `n`, `callTool` fails with "tool not found" without any remote call
exactly when `n` is not one of the names of the catalog `listTools` returns;
the failure is answered as error -32603; a name is routed to an adapter exactly
when the catalog advertises it, and the catalog has twelve names. -/
theorem tool_not_found_iff_not_advertised {σ : Type} (c : GithubClient σ)
    (req : JSONRPCRequest) (w : σ) (n : String)
    (hv : req.jsonrpc = "2.0") (hm : req.method = "tools/call")
    (hn : lookup req.params "name" = GoVal.str n) :
    (((callTool c req.params w).out = GoOut.returned (Except.error "tool not found") ∧
        (callTool c req.params w).calls = []) ↔ n ∉ listTools.tools.map Tool.name) ∧
    (n ∉ listTools.tools.map Tool.name →
      RespondsError (handleRequest c req w) (-32603) "tool not found" ∧
      (handleRequest c req w).calls = [] ∧ (handleRequest c req w).world = w) ∧
    ((selectAdapter c n).isSome = true ↔ n ∈ listTools.tools.map Tool.name) ∧
    (listTools.tools.map Tool.name).length = 12 := by
  have hnames : listTools.tools.map Tool.name = catalogNames := rfl
  rw [hnames]
  refine ⟨⟨?_, ?_⟩, ?_, ?_, rfl⟩
  · rintro ⟨hout, hcalls⟩ hmem
    rw [catalogNames_eq_table, List.mem_map] at hmem
    obtain ⟨⟨name, required⟩, he, rfl⟩ := hmem
    have hname : getString req.params "name" = some name := by
      simp [getString, hn, asString]
    obtain ⟨adapter, hsel, hfail, hcall⟩ := selectAdapter_spec c w name required he
      (match asMap (lookup req.params "arguments") with
        | some m => m
        | none => [])
    unfold callTool at hout hcalls
    simp only [hname, hsel] at hout hcalls
    cases hf : firstMissing (match asMap (lookup req.params "arguments") with
        | some m => m
        | none => []) required with
    | none =>
      have h1 := hcall hf
      rw [hcalls] at h1
      cases h1
    | some k =>
      rw [hfail k hf] at hout
      simp only [failWith, wrapText, GoOut.returned.injEq, Except.error.injEq] at hout
      exact label_ne_tool_not_found _ he k (firstMissing_mem _ _ _ hf).1 hout
  · intro hmem
    rw [callTool_not_found c req.params w n hn hmem]
    exact ⟨rfl, rfl⟩
  · intro hmem
    exact handleRequest_of_callTool_failWith c req w _ hv hm
      (callTool_not_found c req.params w n hn hmem)
  · have hiff := selectAdapter_eq_none_iff c n
    cases hs : selectAdapter c n with
    | none =>
      have hnot := hiff.1 hs
      simp [hnot]
    | some adapter =>
      have hin : n ∈ catalogNames := by
        by_contra hnot
        rw [hiff.2 hnot] at hs
        cases hs
      simp [hin]

/-- Witness of C8: the tool name `github_delete_repo` is not advertised. -/
theorem tool_not_found_iff_not_advertised_witness :
    RespondsError (handleRequest stubClient (toolCallRequest "github_delete_repo" []) 0)
      (-32603) "tool not found" ∧
    (handleRequest stubClient (toolCallRequest "github_delete_repo" []) 0).calls = [] ∧
    (handleRequest stubClient (toolCallRequest "github_delete_repo" []) 0).world = 0 :=
  (tool_not_found_iff_not_advertised stubClient (toolCallRequest "github_delete_repo" []) 0
    "github_delete_repo" rfl rfl rfl).2.1 (by decide)

/-- C9: every request with version "2.0" and method `tools/list`, whatever its
id and params, is answered without remote call by the same catalog: twelve
descriptors with pairwise distinct names, the twelve names of the specification
in order, each with input-schema type "object" and the `required` list of the
required-argument table; two such calls return the same catalog. -/
theorem toolsList_returns_static_catalog {σ : Type} (c : GithubClient σ)
    (req : JSONRPCRequest) (w : σ)
    (hv : req.jsonrpc = "2.0") (hm : req.method = "tools/list") :
    (∃ resp, handleRequest c req w = ⟨w, [], GoOut.returned resp⟩ ∧
      resp.result = some (Payload.toolsList listTools) ∧ resp.error = none) ∧
    listTools.tools.length = 12 ∧
    (listTools.tools.map Tool.name).Nodup ∧
    listTools.tools.map Tool.name =
      ["github_list_repos", "github_create_repo", "github_get_repo", "github_list_branches",
       "github_list_prs", "github_create_pr", "github_list_issues", "github_create_issue",
       "github_create_file", "github_update_file", "github_get_file", "github_list_files"] ∧
    (∀ t ∈ listTools.tools, t.inputSchema.type = "object") ∧
    listTools.tools.map (fun t => (t.name, t.inputSchema.required)) = specRequired ∧
    (∀ (c2 : GithubClient σ) (req2 : JSONRPCRequest) (w2 : σ),
      req2.jsonrpc = "2.0" → req2.method = "tools/list" →
      ∃ r1 r2, (handleRequest c req w).out = GoOut.returned r1 ∧
        (handleRequest c2 req2 w2).out = GoOut.returned r2 ∧ r1.result = r2.result) := by
  have hb := baseResponse_fields req
  refine ⟨⟨withResult (baseResponse req) (Payload.toolsList listTools), ?_, ?_, ?_⟩,
    rfl, by decide, rfl, by decide, rfl, ?_⟩
  · simp [handleRequest, hv, hm]
  · simp [withResult]
  · simp [withResult, hb.2.2.1]
  · intro c2 req2 w2 hv2 hm2
    refine ⟨withResult (baseResponse req) (Payload.toolsList listTools),
      withResult (baseResponse req2) (Payload.toolsList listTools), ?_, ?_, ?_⟩
    · simp [handleRequest, hv, hm]
    · simp [handleRequest, hv2, hm2]
    · simp [withResult]

/-- Witness of C9: a `tools/list` request with a string id and stray params. -/
theorem toolsList_returns_static_catalog_witness :
    ∃ resp, handleRequest stubClient
        ⟨"2.0", GoVal.str "x", "tools/list", [("cursor", GoVal.float64 0)]⟩ 0
        = ⟨0, [], GoOut.returned resp⟩ ∧
      resp.result = some (Payload.toolsList listTools) ∧ resp.error = none :=
  (toolsList_returns_static_catalog stubClient
    ⟨"2.0", GoVal.str "x", "tools/list", [("cursor", GoVal.float64 0)]⟩ 0 rfl rfl).1

theorem handleRequest_toolCall_calls {σ : Type} (c : GithubClient σ) (name : String)
    (args : GoMap) (w : σ) (adapter : GoMap → σ → AdapterRun σ)
    (hsel : selectAdapter c name = some adapter) :
    (handleRequest c (toolCallRequest name args) w).calls = (adapter args w).calls := by
  simp [handleRequest, toolCallRequest, callTool, getString, lookup, asString, asMap, hsel]

theorem handleRequest_toolCall_world {σ : Type} (c : GithubClient σ) (name : String)
    (args : GoMap) (w : σ) (adapter : GoMap → σ → AdapterRun σ)
    (hsel : selectAdapter c name = some adapter) :
    (handleRequest c (toolCallRequest name args) w).world = (adapter args w).world := by
  simp [handleRequest, toolCallRequest, callTool, getString, lookup, asString, asMap, hsel]

/-- C10: the value an adapter sends to the remote collaborator for an optional
argument is `(getString args k).getD d`: the supplied value when it is a string
and the default `d` otherwise (absent or of another type).  `type` defaults to
"all" for list repos, `state` to "open" for list prs and list issues, `branch`
to "main" for create file, update file, get file and list files, `path` to ""
for list files.  Each adapter performs exactly the call carrying that value
(`SendsExactly`: it is the one logged call, the remote state afterwards is the
collaborator's state after that invocation, and the outcome comes from its
answer to it).  In particular `github_list_repos` without `type` requests type
"all" and `github_get_file` on o, r, a.txt requests ref "main". -/
theorem adapters_default_optional_arguments {σ : Type} (c : GithubClient σ) (args : GoMap)
    (w : σ) :
    (∀ k d s, lookup args k = GoVal.str s → (getString args k).getD d = s) ∧
    (∀ k d, (∀ s, lookup args k ≠ GoVal.str s) → (getString args k).getD d = d) ∧
    SendsExactly listRepositories c args w
      (RemoteCall.repositoriesList "" ⟨(getString args "type").getD "all"⟩) ∧
    (∀ owner repo, getString args "owner" = some owner → getString args "repo" = some repo →
      SendsExactly listPullRequests c args w (RemoteCall.pullRequestsList owner repo
        ⟨(getString args "state").getD "open"⟩) ∧
      SendsExactly listIssues c args w (RemoteCall.issuesListByRepo owner repo
        ⟨(getString args "state").getD "open"⟩) ∧
      SendsExactly listFiles c args w (RemoteCall.repositoriesGetContents owner repo
        ((getString args "path").getD "") ⟨(getString args "branch").getD "main"⟩) ∧
      (∀ path, getString args "path" = some path →
        SendsExactly getFile c args w (RemoteCall.repositoriesGetContents owner repo path
          ⟨(getString args "branch").getD "main"⟩) ∧
        (∀ content message, getString args "content" = some content →
          getString args "message" = some message →
          SendsExactly createFile c args w (RemoteCall.repositoriesCreateFile owner repo path
            ⟨some message, content, none, some ((getString args "branch").getD "main")⟩) ∧
          (∀ sha, getString args "sha" = some sha →
            SendsExactly updateFile c args w (RemoteCall.repositoriesUpdateFile owner repo path
              ⟨some message, content, some sha,
                some ((getString args "branch").getD "main")⟩))))) ∧
    ((∀ s, lookup args "type" ≠ GoVal.str s) →
      (handleRequest c (toolCallRequest "github_list_repos" args) w).calls
        = [RemoteCall.repositoriesList "" ⟨"all"⟩] ∧
      (handleRequest c (toolCallRequest "github_list_repos" args) w).world
        = (c.repositoriesList "" ⟨"all"⟩ w).2) ∧
    (handleRequest c (toolCallRequest "github_get_file"
        [("owner", GoVal.str "o"), ("repo", GoVal.str "r"), ("path", GoVal.str "a.txt")]) w).calls
      = [RemoteCall.repositoriesGetContents "o" "r" "a.txt" ⟨"main"⟩] ∧
    (handleRequest c (toolCallRequest "github_get_file"
        [("owner", GoVal.str "o"), ("repo", GoVal.str "r"), ("path", GoVal.str "a.txt")]) w).world
      = (c.repositoriesGetContents "o" "r" "a.txt" ⟨"main"⟩ w).2 := by
  refine ⟨?_, ?_, listRepositories_sends c args w, ?_, ?_, ?_, ?_⟩
  · intro k d s hs
    simp [getString, hs, asString]
  · intro k d hs
    rw [(getString_eq_none_iff args k).2 hs]
    rfl
  · intro owner repo h0 h1
    refine ⟨listPullRequests_sends c args w owner repo h0 h1,
      listIssues_sends c args w owner repo h0 h1,
      listFiles_sends c args w owner repo h0 h1, ?_⟩
    intro path h2
    refine ⟨getFile_sends c args w owner repo path h0 h1 h2, ?_⟩
    intro content message h3 h4
    refine ⟨createFile_sends c args w owner repo path content message h0 h1 h2 h3 h4, ?_⟩
    intro sha h5
    exact updateFile_sends c args w owner repo path content message sha h0 h1 h2 h3 h4 h5
  · intro hs
    have hsel : selectAdapter c "github_list_repos" = some (listRepositories c) := by
      simp [selectAdapter]
    have hsend := listRepositories_sends c args w
    rw [(getString_eq_none_iff args "type").2 hs] at hsend
    rw [handleRequest_toolCall_calls c "github_list_repos" args w _ hsel,
      handleRequest_toolCall_world c "github_list_repos" args w _ hsel]
    exact ⟨hsend.1, hsend.2.1⟩
  · have hsel : selectAdapter c "github_get_file" = some (getFile c) := by
      simp [selectAdapter]
    rw [handleRequest_toolCall_calls c "github_get_file" _ w _ hsel]
    exact (getFile_sends c [("owner", GoVal.str "o"), ("repo", GoVal.str "r"),
      ("path", GoVal.str "a.txt")] w "o" "r" "a.txt" rfl rfl rfl).1
  · have hsel : selectAdapter c "github_get_file" = some (getFile c) := by
      simp [selectAdapter]
    rw [handleRequest_toolCall_world c "github_get_file" _ w _ hsel]
    exact (getFile_sends c [("owner", GoVal.str "o"), ("repo", GoVal.str "r"),
      ("path", GoVal.str "a.txt")] w "o" "r" "a.txt" rfl rfl rfl).2.1

/-- Witness of C10: `github_update_file` with a boolean `branch` writes to
"main"; the boolean is not coerced, and the stub has counted one invocation. -/
theorem adapters_default_optional_arguments_witness :
    (updateFile stubClient updateWithBoolBranch 0).calls
      = [RemoteCall.repositoriesUpdateFile "o" "r" "p"
          ⟨some "m", "x", some "s", some "main"⟩] ∧
    (updateFile stubClient updateWithBoolBranch 0).world = 1 :=
  ⟨(((((adapters_default_optional_arguments stubClient updateWithBoolBranch 0).2.2.2.1
    "o" "r" rfl rfl).2.2.2 "p" rfl).2 "x" "m" rfl rfl).2 "s" rfl).1,
   (((((adapters_default_optional_arguments stubClient updateWithBoolBranch 0).2.2.2.1
    "o" "r" rfl rfl).2.2.2 "p" rfl).2 "x" "m" rfl rfl).2 "s" rfl).2.1⟩

theorem listRepositories_returns {σ : Type} (c : GithubClient σ) (args : GoMap) (w : σ) :
    ∃ r, (listRepositories c args w).out = GoOut.returned r := by
  unfold listRepositories
  repeat' split
  all_goals exact ⟨_, rfl⟩

theorem createRepository_returns {σ : Type} (c : GithubClient σ) (args : GoMap) (w : σ) :
    ∃ r, (createRepository c args w).out = GoOut.returned r := by
  unfold createRepository
  repeat' split
  all_goals exact ⟨_, rfl⟩

theorem getRepository_returns {σ : Type} (c : GithubClient σ) (args : GoMap) (w : σ) :
    ∃ r, (getRepository c args w).out = GoOut.returned r := by
  unfold getRepository
  repeat' split
  all_goals exact ⟨_, rfl⟩

theorem listBranches_returns {σ : Type} (c : GithubClient σ) (args : GoMap) (w : σ) :
    ∃ r, (listBranches c args w).out = GoOut.returned r := by
  unfold listBranches
  repeat' split
  all_goals exact ⟨_, rfl⟩

theorem listPullRequests_returns {σ : Type} (c : GithubClient σ) (args : GoMap) (w : σ) :
    ∃ r, (listPullRequests c args w).out = GoOut.returned r := by
  unfold listPullRequests
  repeat' split
  all_goals exact ⟨_, rfl⟩

theorem createPullRequest_returns {σ : Type} (c : GithubClient σ) (args : GoMap) (w : σ) :
    ∃ r, (createPullRequest c args w).out = GoOut.returned r := by
  unfold createPullRequest
  repeat' split
  all_goals exact ⟨_, rfl⟩

theorem listIssues_returns {σ : Type} (c : GithubClient σ) (args : GoMap) (w : σ) :
    ∃ r, (listIssues c args w).out = GoOut.returned r := by
  unfold listIssues
  repeat' split
  all_goals exact ⟨_, rfl⟩

theorem createIssue_returns {σ : Type} (c : GithubClient σ) (args : GoMap) (w : σ) :
    ∃ r, (createIssue c args w).out = GoOut.returned r := by
  unfold createIssue
  repeat' split
  all_goals exact ⟨_, rfl⟩

theorem createFile_returns {σ : Type} (c : GithubClient σ) (args : GoMap) (w : σ) :
    ∃ r, (createFile c args w).out = GoOut.returned r := by
  unfold createFile
  repeat' split
  all_goals exact ⟨_, rfl⟩

theorem updateFile_returns {σ : Type} (c : GithubClient σ) (args : GoMap) (w : σ) :
    ∃ r, (updateFile c args w).out = GoOut.returned r := by
  unfold updateFile
  repeat' split
  all_goals exact ⟨_, rfl⟩

theorem listFiles_returns {σ : Type} (c : GithubClient σ) (args : GoMap) (w : σ) :
    ∃ r, (listFiles c args w).out = GoOut.returned r := by
  unfold listFiles
  repeat' split
  all_goals exact ⟨_, rfl⟩


theorem getFile_returns_or_nil_file {σ : Type} (c : GithubClient σ) (args : GoMap) (w : σ) :
    (∃ r, (getFile c args w).out = GoOut.returned r) ∨
    (getFile c args w).out = GoOut.panicked nilDereference := by
  unfold getFile
  cases getString args "owner" with
  | none => exact Or.inl ⟨_, rfl⟩
  | some owner =>
  cases getString args "repo" with
  | none => exact Or.inl ⟨_, rfl⟩
  | some repo =>
  cases getString args "path" with
  | none => exact Or.inl ⟨_, rfl⟩
  | some path =>
    dsimp only
    repeat' split
    all_goals first
      | exact Or.inl ⟨_, rfl⟩
      | exact Or.inr rfl

theorem selectAdapter_returns_or_nil_file {σ : Type} (c : GithubClient σ) (n : String)
    (adapter : GoMap → σ → AdapterRun σ) (h : selectAdapter c n = some adapter)
    (args : GoMap) (w : σ) :
    (∃ r, (adapter args w).out = GoOut.returned r) ∨
    ((adapter args w).out = GoOut.panicked nilDereference ∧ n = "github_get_file") := by
  have hmem : n ∈ catalogNames := by
    by_contra hnot
    rw [(selectAdapter_eq_none_iff c n).2 hnot] at h
    cases h
  rw [catalogNames_eq] at hmem
  simp only [List.mem_cons, List.mem_singleton, List.not_mem_nil, or_false] at hmem
  rcases hmem with rfl | rfl | rfl | rfl | rfl | rfl | rfl | rfl | rfl | rfl | rfl | rfl
  · simp [selectAdapter] at h
    subst h
    exact Or.inl (listRepositories_returns c args w)
  · simp [selectAdapter] at h
    subst h
    exact Or.inl (createRepository_returns c args w)
  · simp [selectAdapter] at h
    subst h
    exact Or.inl (getRepository_returns c args w)
  · simp [selectAdapter] at h
    subst h
    exact Or.inl (listBranches_returns c args w)
  · simp [selectAdapter] at h
    subst h
    exact Or.inl (listPullRequests_returns c args w)
  · simp [selectAdapter] at h
    subst h
    exact Or.inl (createPullRequest_returns c args w)
  · simp [selectAdapter] at h
    subst h
    exact Or.inl (listIssues_returns c args w)
  · simp [selectAdapter] at h
    subst h
    exact Or.inl (createIssue_returns c args w)
  · simp [selectAdapter] at h
    subst h
    exact Or.inl (createFile_returns c args w)
  · simp [selectAdapter] at h
    subst h
    exact Or.inl (updateFile_returns c args w)
  · simp [selectAdapter] at h
    subst h
    rcases getFile_returns_or_nil_file c args w with hr | hp
    · exact Or.inl hr
    · exact Or.inr ⟨hp, rfl⟩
  · simp [selectAdapter] at h
    subst h
    exact Or.inl (listFiles_returns c args w)

/-- `handleRequest` returns a response on every run but one: a `tools/call` of
`github_get_file` that panics on the nil file. -/
theorem handleRequest_returns_or_nil_file {σ : Type} (c : GithubClient σ)
    (req : JSONRPCRequest) (w : σ) :
    (∃ resp, (handleRequest c req w).out = GoOut.returned resp) ∨
    ((handleRequest c req w).out = GoOut.panicked nilDereference ∧
      req.method = "tools/call" ∧ lookup req.params "name" = GoVal.str "github_get_file") := by
  unfold handleRequest
  simp only
  split_ifs with h1 h2 h3 h4 h5 h6
  all_goals first
    | exact Or.inl ⟨_, rfl⟩
    | skip
  unfold callTool
  cases hn : lookup req.params "name" with
  | str n =>
    simp only [getString, hn, asString]
    cases hs : selectAdapter c n with
    | none => exact Or.inl ⟨_, rfl⟩
    | some adapter =>
      dsimp only
      rcases selectAdapter_returns_or_nil_file c n adapter hs
        (match asMap (lookup req.params "arguments") with
          | some m => m
          | none => []) w with ⟨r, hr⟩ | ⟨hp, rfl⟩
      · rw [hr]
        cases r with
        | error e => exact Or.inl ⟨_, rfl⟩
        | ok t => exact Or.inl ⟨_, rfl⟩
      · rw [hp]
        exact Or.inr ⟨rfl, h6, rfl⟩
  | _ =>
    left
    simp [getString, hn, asString, failWith]

/-! ## The text of the listing tools -/

theorem collect_nil {α : Type} (f : α → ResultMap) : collect f [] = none := rfl

theorem foldl_goAppend_some {α : Type} (f : α → ResultMap) (xs : List α)
    (acc : List ResultMap) :
    xs.foldl (fun result x => goAppend result (f x)) (some acc) = some (acc ++ xs.map f) := by
  induction xs generalizing acc with
  | nil => simp
  | cons x rest ih =>
    rw [List.foldl_cons]
    show List.foldl (fun result x => goAppend result (f x)) (some (acc ++ [f x])) rest = _
    rw [ih]
    simp

theorem collect_of_ne_nil {α : Type} (f : α → ResultMap) (xs : List α) (hne : xs ≠ []) :
    collect f xs = some (xs.map f) := by
  cases xs with
  | nil => exact absurd rfl hne
  | cons x rest =>
    unfold collect
    rw [List.foldl_cons]
    show List.foldl (fun result x => goAppend result (f x)) (some [f x]) rest = _
    rw [foldl_goAppend_some]
    simp

theorem mem_insertByKey (e a : String × FieldVal) (m : ResultMap) :
    e ∈ insertByKey a m ↔ e = a ∨ e ∈ m := by
  induction m with
  | nil => simp [insertByKey]
  | cons b rest ih =>
    unfold insertByKey
    split_ifs
    · simp
    · simp only [List.mem_cons, ih]
      tauto

theorem mem_sortByKey (e : String × FieldVal) (m : ResultMap) :
    e ∈ sortByKey m ↔ e ∈ m := by
  unfold sortByKey
  induction m with
  | nil => simp
  | cons b rest ih =>
    simp only [List.foldr_cons, mem_insertByKey, ih, List.mem_cons]

theorem marshalMembers_of_encodes (m : ResultMap) (h : Encodes m) :
    marshalMembers m = some (m.map memberText) := by
  induction m with
  | nil => rfl
  | cons e rest ih =>
    obtain ⟨k, v⟩ := e
    obtain ⟨s, hs⟩ := h (k, v) (List.mem_cons_self _ _)
    have hrest : Encodes rest := fun e he => h e (List.mem_cons_of_mem _ he)
    simp only [marshalMembers, ih hrest, List.map_cons, memberText]
    simp only at hs
    rw [hs]
    rfl

theorem marshalMapAt_of_encodes (d : Nat) (m : ResultMap) (h : Encodes m) :
    marshalMapAt d m = some (bracket d "\x7b" "\x7d" ((sortByKey m).map memberText)) := by
  have hs : Encodes (sortByKey m) := fun e he => h e ((mem_sortByKey e m).1 he)
  simp [marshalMapAt, marshalMembers_of_encodes _ hs]

theorem marshalElems_of_encodes (ms : List ResultMap) (h : ∀ m ∈ ms, Encodes m) :
    marshalElems ms = some (ms.map objectText) := by
  induction ms with
  | nil => rfl
  | cons m rest ih =>
    have hm := marshalMapAt_of_encodes 1 m (h m (List.mem_cons_self _ _))
    have hrest := ih (fun m' hm' => h m' (List.mem_cons_of_mem _ hm'))
    simp [marshalElems, hm, hrest, objectText]

/-- The text of a listing loop: `null` for no entity, and otherwise the array of
one object per entity, in order. -/
theorem marshalIndentSlice_collect {α : Type} (f : α → ResultMap) (xs : List α)
    (h : ∀ x ∈ xs, Encodes (f x)) :
    (xs = [] → marshalIndentSlice (collect f xs) = "null") ∧
    (xs ≠ [] → marshalIndentSlice (collect f xs)
      = arrayText (xs.map (fun x => objectText (f x)))) := by
  constructor
  · rintro rfl
    rfl
  · intro hne
    rw [collect_of_ne_nil f xs hne]
    have hm : ∀ m ∈ xs.map f, Encodes m := by
      intro m hmem
      obtain ⟨x, hx, rfl⟩ := List.mem_map.1 hmem
      exact h x hx
    simp [marshalIndentSlice, marshalElems_of_encodes _ hm, arrayText, List.map_map,
      Function.comp_def]

theorem listRepositories_text {σ : Type} (c : GithubClient σ) (args : GoMap) (w : σ)
    (repos : List Repository)
    (hans : (c.repositoriesList "" ⟨(getString args "type").getD "all"⟩ w).1 = Except.ok repos) :
    (repos = [] → (listRepositories c args w).out = GoOut.returned (Except.ok "null")) ∧
    (repos ≠ [] → (listRepositories c args w).out = GoOut.returned (Except.ok (arrayText (repos.map
      (fun repo => objectText
       [("name", FieldVal.str repo.GetName),
        ("description", FieldVal.str repo.GetDescription),
        ("private", FieldVal.bool repo.GetPrivate),
        ("url", FieldVal.str repo.GetHTMLURL),
        ("language", FieldVal.str repo.GetLanguage),
        ("stars", FieldVal.int repo.GetStargazersCount)]))))) := by
  have henc : ∀ repo ∈ repos, Encodes
      [("name", FieldVal.str repo.GetName),
        ("description", FieldVal.str repo.GetDescription),
        ("private", FieldVal.bool repo.GetPrivate),
        ("url", FieldVal.str repo.GetHTMLURL),
        ("language", FieldVal.str repo.GetLanguage),
        ("stars", FieldVal.int repo.GetStargazersCount)] := by
    intro repo _ e he
    simp only [List.mem_cons, List.mem_singleton, List.not_mem_nil, or_false] at he
    rcases he with rfl | rfl | rfl | rfl | rfl | rfl <;> exact ⟨_, rfl⟩
  have htext := marshalIndentSlice_collect (fun repo =>
      [("name", FieldVal.str repo.GetName),
        ("description", FieldVal.str repo.GetDescription),
        ("private", FieldVal.bool repo.GetPrivate),
        ("url", FieldVal.str repo.GetHTMLURL),
        ("language", FieldVal.str repo.GetLanguage),
        ("stars", FieldVal.int repo.GetStargazersCount)]) repos henc
  unfold listRepositories
  cases ho0 : getString args "type" <;> simp only [ho0, Option.getD] at hans <;>
  simp only [hans] <;>
  exact ⟨fun h => by rw [htext.1 h], fun h => by rw [htext.2 h]⟩

theorem listBranches_text {σ : Type} (c : GithubClient σ) (args : GoMap) (w : σ)
    (owner repo : String)
    (h0 : getString args "owner" = some owner)
    (h1 : getString args "repo" = some repo)
    (branches : List Branch)
    (hans : (c.repositoriesListBranches owner repo w).1 = Except.ok branches) :
    (branches = [] → (listBranches c args w).out = GoOut.returned (Except.ok "null")) ∧
    (branches ≠ [] → (listBranches c args w).out = GoOut.returned (Except.ok (arrayText (branches.map
      (fun branch => objectText
       [("name", FieldVal.str branch.GetName),
        ("protected", FieldVal.bool branch.GetProtected),
        ("sha", FieldVal.str branch.GetCommitSHA)]))))) := by
  have henc : ∀ branch ∈ branches, Encodes
      [("name", FieldVal.str branch.GetName),
        ("protected", FieldVal.bool branch.GetProtected),
        ("sha", FieldVal.str branch.GetCommitSHA)] := by
    intro branch _ e he
    simp only [List.mem_cons, List.mem_singleton, List.not_mem_nil, or_false] at he
    rcases he with rfl | rfl | rfl <;> exact ⟨_, rfl⟩
  have htext := marshalIndentSlice_collect (fun branch =>
      [("name", FieldVal.str branch.GetName),
        ("protected", FieldVal.bool branch.GetProtected),
        ("sha", FieldVal.str branch.GetCommitSHA)]) branches henc
  unfold listBranches
  simp only [h0, h1]
  simp only [hans]
  exact ⟨fun h => by rw [htext.1 h], fun h => by rw [htext.2 h]⟩

theorem listPullRequests_text {σ : Type} (c : GithubClient σ) (args : GoMap) (w : σ)
    (owner repo : String)
    (h0 : getString args "owner" = some owner)
    (h1 : getString args "repo" = some repo)
    (prs : List PullRequest)
    (hans : (c.pullRequestsList owner repo ⟨(getString args "state").getD "open"⟩ w).1 = Except.ok prs) :
    (prs = [] → (listPullRequests c args w).out = GoOut.returned (Except.ok "null")) ∧
    (prs ≠ [] → (listPullRequests c args w).out = GoOut.returned (Except.ok (arrayText (prs.map
      (fun pr => objectText
       [("number", FieldVal.int pr.GetNumber),
        ("title", FieldVal.str pr.GetTitle),
        ("state", FieldVal.str pr.GetState),
        ("url", FieldVal.str pr.GetHTMLURL),
        ("user", FieldVal.str (User.GetLogin pr.user)),
        ("head", FieldVal.str (PullRequestBranch.GetRef pr.head)),
        ("base", FieldVal.str (PullRequestBranch.GetRef pr.base))]))))) := by
  have henc : ∀ pr ∈ prs, Encodes
      [("number", FieldVal.int pr.GetNumber),
        ("title", FieldVal.str pr.GetTitle),
        ("state", FieldVal.str pr.GetState),
        ("url", FieldVal.str pr.GetHTMLURL),
        ("user", FieldVal.str (User.GetLogin pr.user)),
        ("head", FieldVal.str (PullRequestBranch.GetRef pr.head)),
        ("base", FieldVal.str (PullRequestBranch.GetRef pr.base))] := by
    intro pr _ e he
    simp only [List.mem_cons, List.mem_singleton, List.not_mem_nil, or_false] at he
    rcases he with rfl | rfl | rfl | rfl | rfl | rfl | rfl <;> exact ⟨_, rfl⟩
  have htext := marshalIndentSlice_collect (fun pr =>
      [("number", FieldVal.int pr.GetNumber),
        ("title", FieldVal.str pr.GetTitle),
        ("state", FieldVal.str pr.GetState),
        ("url", FieldVal.str pr.GetHTMLURL),
        ("user", FieldVal.str (User.GetLogin pr.user)),
        ("head", FieldVal.str (PullRequestBranch.GetRef pr.head)),
        ("base", FieldVal.str (PullRequestBranch.GetRef pr.base))]) prs henc
  unfold listPullRequests
  simp only [h0, h1]
  cases ho0 : getString args "state" <;> simp only [ho0, Option.getD] at hans <;>
  simp only [hans] <;>
  exact ⟨fun h => by rw [htext.1 h], fun h => by rw [htext.2 h]⟩

theorem listIssues_text {σ : Type} (c : GithubClient σ) (args : GoMap) (w : σ)
    (owner repo : String)
    (h0 : getString args "owner" = some owner)
    (h1 : getString args "repo" = some repo)
    (issues : List Issue)
    (hans : (c.issuesListByRepo owner repo ⟨(getString args "state").getD "open"⟩ w).1 = Except.ok issues) :
    (issues = [] → (listIssues c args w).out = GoOut.returned (Except.ok "null")) ∧
    (issues ≠ [] → (listIssues c args w).out = GoOut.returned (Except.ok (arrayText (issues.map
      (fun issue => objectText
       [("number", FieldVal.int issue.GetNumber),
        ("title", FieldVal.str issue.GetTitle),
        ("state", FieldVal.str issue.GetState),
        ("url", FieldVal.str issue.GetHTMLURL),
        ("user", FieldVal.str (User.GetLogin issue.user))]))))) := by
  have henc : ∀ issue ∈ issues, Encodes
      [("number", FieldVal.int issue.GetNumber),
        ("title", FieldVal.str issue.GetTitle),
        ("state", FieldVal.str issue.GetState),
        ("url", FieldVal.str issue.GetHTMLURL),
        ("user", FieldVal.str (User.GetLogin issue.user))] := by
    intro issue _ e he
    simp only [List.mem_cons, List.mem_singleton, List.not_mem_nil, or_false] at he
    rcases he with rfl | rfl | rfl | rfl | rfl <;> exact ⟨_, rfl⟩
  have htext := marshalIndentSlice_collect (fun issue =>
      [("number", FieldVal.int issue.GetNumber),
        ("title", FieldVal.str issue.GetTitle),
        ("state", FieldVal.str issue.GetState),
        ("url", FieldVal.str issue.GetHTMLURL),
        ("user", FieldVal.str (User.GetLogin issue.user))]) issues henc
  unfold listIssues
  simp only [h0, h1]
  cases ho0 : getString args "state" <;> simp only [ho0, Option.getD] at hans <;>
  simp only [hans] <;>
  exact ⟨fun h => by rw [htext.1 h], fun h => by rw [htext.2 h]⟩

theorem listFiles_text {σ : Type} (c : GithubClient σ) (args : GoMap) (w : σ)
    (owner repo : String)
    (h0 : getString args "owner" = some owner)
    (h1 : getString args "repo" = some repo)
    (file : Option RepositoryContent) (contents : List RepositoryContent)
    (hans : (c.repositoriesGetContents owner repo ((getString args "path").getD "")
      ⟨(getString args "branch").getD "main"⟩ w).1 = Except.ok (file, contents)) :
    (contents = [] → (listFiles c args w).out = GoOut.returned (Except.ok "null")) ∧
    (contents ≠ [] → (listFiles c args w).out = GoOut.returned (Except.ok (arrayText (contents.map
      (fun item => objectText
       [("name", FieldVal.str item.GetName),
        ("path", FieldVal.str item.GetPath),
        ("type", FieldVal.str item.GetType),
        ("size", FieldVal.int item.GetSize),
        ("sha", FieldVal.str item.GetSHA),
        ("url", FieldVal.str item.GetHTMLURL)]))))) := by
  have henc : ∀ item ∈ contents, Encodes
      [("name", FieldVal.str item.GetName),
        ("path", FieldVal.str item.GetPath),
        ("type", FieldVal.str item.GetType),
        ("size", FieldVal.int item.GetSize),
        ("sha", FieldVal.str item.GetSHA),
        ("url", FieldVal.str item.GetHTMLURL)] := by
    intro item _ e he
    simp only [List.mem_cons, List.mem_singleton, List.not_mem_nil, or_false] at he
    rcases he with rfl | rfl | rfl | rfl | rfl | rfl <;> exact ⟨_, rfl⟩
  have htext := marshalIndentSlice_collect (fun item =>
      [("name", FieldVal.str item.GetName),
        ("path", FieldVal.str item.GetPath),
        ("type", FieldVal.str item.GetType),
        ("size", FieldVal.int item.GetSize),
        ("sha", FieldVal.str item.GetSHA),
        ("url", FieldVal.str item.GetHTMLURL)]) contents henc
  unfold listFiles
  simp only [h0, h1]
  cases ho0 : getString args "path" <;> simp only [ho0, Option.getD] at hans <;>
  cases ho1 : getString args "branch" <;> simp only [ho1, Option.getD] at hans <;>
  simp only [hans] <;>
  exact ⟨fun h => by rw [htext.1 h], fun h => by rw [htext.2 h]⟩

/-- C11 (the code on the failing input): listing the pull requests of a
repository that has none.  The remote answers the empty list, the adapter's
result slice stays nil, and the text is `null`, which is not the JSON array of
zero objects `[]`. -/
theorem listing_empty_list_gives_null :
    (stubClient.pullRequestsList "o" "r" ⟨"open"⟩ 0).1 = Except.ok [] ∧
    (listPullRequests stubClient ownerRepoArgs 0).out = GoOut.returned (Except.ok "null") ∧
    (callTool stubClient
        [("name", GoVal.str "github_list_prs"), ("arguments", GoVal.map ownerRepoArgs)] 0).out
      = GoOut.returned (Except.ok ⟨[⟨"text", "null"⟩]⟩) ∧
    arrayText [] = "[]" ∧ "null" ≠ arrayText [] := by
  refine ⟨rfl, rfl, rfl, rfl, by decide⟩

/-! ## The text of the creating and updating tools -/

theorem embeds_of_eq (text pre part post : String) (h : text = pre ++ part ++ post) :
    Embeds text part := by
  subst h
  exact ⟨pre.toList, post.toList, by simp [String.toList]⟩

/-- C12 (the claim fails as stated): `github_create_file` answers a successful
write with the path and the commit SHA; the text holds no URL, neither the HTML
URL of the stored file nor any other. -/
theorem createFile_text_embeds_no_url :
    (fileClient.repositoriesCreateFile "o" "r" "p" ⟨some "m", "x", none, some "main"⟩ 0).1
      = Except.ok sampleCreated ∧
    (createFile fileClient createFileArgs 0).out
      = GoOut.returned (Except.ok "File \x27p\x27 created successfully. Commit SHA: c0ffee") ∧
    ¬ Embeds "File \x27p\x27 created successfully. Commit SHA: c0ffee"
        "https://github.com/o/r/blob/main/p" ∧
    ¬ Embeds "File \x27p\x27 created successfully. Commit SHA: c0ffee" "http" := by
  refine ⟨rfl, rfl, ?_, ?_⟩
  · unfold Embeds
    decide
  · unfold Embeds
    decide

theorem embeds_second (a b c d : String) : Embeds (a ++ b ++ c ++ d) b :=
  embeds_of_eq _ a b (c ++ d) (by simp [String.append_assoc])

theorem embeds_last (a b : String) : Embeds (a ++ b) b :=
  embeds_of_eq _ a b "" (by simp)

/-- C12 (amended): on a successful remote response, create repo, create pr and
create issue answer one sentence that embeds the entity's identifying field
(repository name, PR number, issue number) and its HTML URL, both as the remote
returned them; create file and update file answer one sentence that embeds the
`path` argument and the SHA of the commit the remote returned. -/
theorem creating_tools_confirmation_text {σ : Type} (c : GithubClient σ) (args : GoMap)
    (w : σ) :
    (∀ name created, getString args "name" = some name →
      (c.repositoriesCreate ""
        ⟨some name, getString args "description", getBool args "private"⟩ w).1
        = Except.ok created →
      ∃ text, (createRepository c args w).out = GoOut.returned (Except.ok text) ∧
        text = "Repository \x27" ++ created.GetName ++ "\x27 created successfully: "
          ++ created.GetHTMLURL ∧
        Embeds text created.GetName ∧ Embeds text created.GetHTMLURL) ∧
    (∀ owner repo title, getString args "owner" = some owner →
      getString args "repo" = some repo → getString args "title" = some title →
      (∀ head base created, getString args "head" = some head →
        getString args "base" = some base →
        (c.pullRequestsCreate owner repo
          ⟨some title, some head, some base, getString args "body"⟩ w).1 = Except.ok created →
        ∃ text, (createPullRequest c args w).out = GoOut.returned (Except.ok text) ∧
          text = "Pull Request #" ++ toString created.GetNumber ++ " created: "
            ++ created.GetHTMLURL ∧
          Embeds text (toString created.GetNumber) ∧ Embeds text created.GetHTMLURL) ∧
      (∀ created,
        (c.issuesCreate owner repo ⟨some title, getString args "body"⟩ w).1
          = Except.ok created →
        ∃ text, (createIssue c args w).out = GoOut.returned (Except.ok text) ∧
          text = "Issue #" ++ toString created.GetNumber ++ " created: "
            ++ created.GetHTMLURL ∧
          Embeds text (toString created.GetNumber) ∧ Embeds text created.GetHTMLURL)) ∧
    (∀ owner repo path content message, getString args "owner" = some owner →
      getString args "repo" = some repo → getString args "path" = some path →
      getString args "content" = some content → getString args "message" = some message →
      (∀ result,
        (c.repositoriesCreateFile owner repo path
          ⟨some message, content, none, some ((getString args "branch").getD "main")⟩ w).1
          = Except.ok result →
        ∃ text, (createFile c args w).out = GoOut.returned (Except.ok text) ∧
          text = "File \x27" ++ path ++ "\x27 created successfully. Commit SHA: "
            ++ result.commit.GetSHA ∧
          Embeds text path ∧ Embeds text result.commit.GetSHA) ∧
      (∀ sha result, getString args "sha" = some sha →
        (c.repositoriesUpdateFile owner repo path
          ⟨some message, content, some sha, some ((getString args "branch").getD "main")⟩ w).1
          = Except.ok result →
        ∃ text, (updateFile c args w).out = GoOut.returned (Except.ok text) ∧
          text = "File \x27" ++ path ++ "\x27 updated successfully. Commit SHA: "
            ++ result.commit.GetSHA ∧
          Embeds text path ∧ Embeds text result.commit.GetSHA)) := by
  refine ⟨?_, ?_, ?_⟩
  · intro name created h0 hans
    refine ⟨_, ?_, rfl, embeds_second _ _ _ _, embeds_last _ _⟩
    unfold createRepository
    simp only [h0, hans]
  · intro owner repo title h0 h1 h2
    constructor
    · intro head base created h3 h4 hans
      refine ⟨_, ?_, rfl, embeds_second _ _ _ _, embeds_last _ _⟩
      unfold createPullRequest
      simp only [h0, h1, h2, h3, h4, hans]
    · intro created hans
      refine ⟨_, ?_, rfl, embeds_second _ _ _ _, embeds_last _ _⟩
      unfold createIssue
      simp only [h0, h1, h2, hans]
  · intro owner repo path content message h0 h1 h2 h3 h4
    constructor
    · intro result hans
      refine ⟨_, ?_, rfl, embeds_second _ _ _ _, embeds_last _ _⟩
      unfold createFile
      simp only [h0, h1, h2, h3, h4]
      cases hb : getString args "branch" <;> simp only [hb, Option.getD] at hans <;>
        simp only [hans]
    · intro sha result h5 hans
      refine ⟨_, ?_, rfl, embeds_second _ _ _ _, embeds_last _ _⟩
      unfold updateFile
      simp only [h0, h1, h2, h3, h4, h5]
      cases hb : getString args "branch" <;> simp only [hb, Option.getD] at hans <;>
        simp only [hans]

/-- Witness of C12: the stub answers `github_create_pr` with pull request 7. -/
theorem creating_tools_confirmation_text_witness :
    ∃ text, (createPullRequest stubClient createPrArgs 0).out
        = GoOut.returned (Except.ok text) ∧
      text = "Pull Request #" ++ toString (7 : Int) ++ " created: "
        ++ "https://github.com/o/r/pull/7" ∧
      Embeds text (toString (7 : Int)) ∧ Embeds text "https://github.com/o/r/pull/7" :=
  ((creating_tools_confirmation_text stubClient createPrArgs 0).2.1 "o" "r" "t"
    rfl rfl rfl).1 "dev" "main"
    ⟨some 7, none, none, some "https://github.com/o/r/pull/7", none, none, none⟩
    rfl rfl rfl

/-! ## The transport loop -/

theorem mainLoop_blank {σ : Type} (unmarshal : String → Option JSONRPCRequest)
    (marshal : JSONRPCResponse → Except String String) (c : GithubClient σ)
    (rest : List String) (w : σ) :
    mainLoop unmarshal marshal c ("" :: rest) w = mainLoop unmarshal marshal c rest w := by
  simp [mainLoop]

theorem mainLoop_unparsable {σ : Type} (unmarshal : String → Option JSONRPCRequest)
    (marshal : JSONRPCResponse → Except String String) (c : GithubClient σ)
    (line : String) (rest : List String) (w : σ) (h : unmarshal line = none) :
    mainLoop unmarshal marshal c (line :: rest) w = mainLoop unmarshal marshal c rest w := by
  by_cases hb : line = ""
  · simp [mainLoop, hb]
  · simp [mainLoop, hb, h]

theorem mainLoop_response {σ : Type} (unmarshal : String → Option JSONRPCRequest)
    (marshal : JSONRPCResponse → Except String String) (c : GithubClient σ)
    (line : String) (rest : List String) (w : σ) (req : JSONRPCRequest)
    (resp : JSONRPCResponse) (text : String)
    (hb : line ≠ "") (hreq : unmarshal line = some req)
    (hout : (handleRequest c req w).out = GoOut.returned resp)
    (htext : marshal resp = Except.ok text) :
    (mainLoop unmarshal marshal c (line :: rest) w).output
      = text :: (mainLoop unmarshal marshal c rest (handleRequest c req w).world).output := by
  simp [mainLoop, hb, hreq, hout, htext]

theorem mainLoop_panic {σ : Type} (unmarshal : String → Option JSONRPCRequest)
    (marshal : JSONRPCResponse → Except String String) (c : GithubClient σ)
    (line : String) (rest : List String) (w : σ) (req : JSONRPCRequest) (msg : String)
    (hb : line ≠ "") (hreq : unmarshal line = some req)
    (hout : (handleRequest c req w).out = GoOut.panicked msg) :
    (mainLoop unmarshal marshal c (line :: rest) w).output = [] ∧
    (mainLoop unmarshal marshal c (line :: rest) w).exit = GoOut.panicked msg := by
  simp [mainLoop, hb, hreq, hout]

/-- When the loop runs to the end of the input and every response serialises,
it writes one line per input line that is neither blank nor unparsable. -/
theorem mainLoop_output_length {σ : Type} (unmarshal : String → Option JSONRPCRequest)
    (marshal : JSONRPCResponse → Except String String) (c : GithubClient σ)
    (hm : ∀ resp, ∃ text, marshal resp = Except.ok text)
    (lines : List String) (w : σ)
    (hexit : (mainLoop unmarshal marshal c lines w).exit = GoOut.returned ()) :
    (mainLoop unmarshal marshal c lines w).output.length
      = (requestLines unmarshal lines).length := by
  induction lines generalizing w with
  | nil => rfl
  | cons line rest ih =>
    by_cases hb : line = ""
    · subst hb
      rw [mainLoop_blank] at hexit ⊢
      simpa [requestLines] using ih w hexit
    · cases hreq : unmarshal line with
      | none =>
        rw [mainLoop_unparsable _ _ _ _ _ _ hreq] at hexit ⊢
        simpa [requestLines, hb, hreq] using ih w hexit
      | some req =>
        cases hout : (handleRequest c req w).out with
        | panicked msg =>
          rw [(mainLoop_panic unmarshal marshal c line rest w req msg hb hreq hout).2] at hexit
          cases hexit
        | returned resp =>
          obtain ⟨text, htext⟩ := hm resp
          have hexit2 : (mainLoop unmarshal marshal c rest (handleRequest c req w).world).exit
              = GoOut.returned () := by
            simpa [mainLoop, hb, hreq, hout, htext] using hexit
          rw [mainLoop_response unmarshal marshal c line rest w req resp text hb hreq hout htext]
          have := ih _ hexit2
          simp [requestLines, hb, hreq] at this ⊢
          exact this

/-- C13 (the code on the failing input): two request lines, the first a
`github_get_file` on a directory.  Both lines parse, `handleRequest` panics on
the first, the process dies, and no line is written: neither for the first
request nor for the second, which on its own is answered by one line. -/
theorem mainLoop_stops_at_panicking_request
    (marshal : JSONRPCResponse → Except String String) :
    requestLines stubUnmarshal [getFileLine, initializedLine]
      = [getFileLine, initializedLine] ∧
    (mainLoop stubUnmarshal marshal stubClient [getFileLine, initializedLine] 0).output = [] ∧
    (mainLoop stubUnmarshal marshal stubClient [getFileLine, initializedLine] 0).exit
      = GoOut.panicked nilDereference ∧
    (∀ text, marshal ⟨"2.0", GoVal.str "a", some (Payload.value (GoVal.map [])), none⟩
        = Except.ok text →
      (mainLoop stubUnmarshal marshal stubClient [initializedLine] 0).output = [text]) := by
  have h1 : getFileLine ≠ "" := by decide
  have h2 : stubUnmarshal getFileLine = some getFileOnDirectory := rfl
  have h3 : (handleRequest stubClient getFileOnDirectory 0).out
      = GoOut.panicked nilDereference := rfl
  have hp := mainLoop_panic stubUnmarshal marshal stubClient getFileLine [initializedLine] 0
    getFileOnDirectory nilDereference h1 h2 h3
  refine ⟨by decide, hp.1, hp.2, ?_⟩
  intro text htext
  have h4 : initializedLine ≠ "" := by decide
  have h5 : stubUnmarshal initializedLine = some initializedRequest := rfl
  have h6 : (handleRequest stubClient initializedRequest 0).out
      = GoOut.returned ⟨"2.0", GoVal.str "a", some (Payload.value (GoVal.map [])), none⟩ := rfl
  rw [mainLoop_response stubUnmarshal marshal stubClient initializedLine [] 0
    initializedRequest _ text h4 h5 h6 htext]
  rfl

end GithubMcp
